import Mathlib

/-!
# Ticket management system: seat inventory and booking ledger

A shallow embedding of the booking core of `src/utilities.c` (`buyTicket`,
`updateBookedField`, `updateBookedFieldInFile`, `updateTicketStatus`, `viewUpcomingShows`,
the identifier generators) together with theorems about it.

Modelling conventions.

* A C string is the list of its characters before the terminating NUL (`CStr`); a data file
  is the list of its characters.
* C `int` values are `Int`; none of the modelled computations on well-formed data overflows
  (ticket ids are array indices, seat numbers are re-read decimal texts of `int`s).
* The routines are modelled in two layers.
  - The loops that run on the loaded arrays, between the load and the rewrite of the files
    (`buyLoop`, `cancelLoop`, `listLoop`, `updateShowAt`).  `buyTicket`, `updateTicketStatus`,
    `updateBookedFieldInFile` and `viewUpcomingShows` are these loops on the record lists of
    a `Ledger`: they describe the routines on files whose records load back as they were
    saved (`loadShows_of_loads`, `loadTickets_saveTickets`, `buyTicketFiles_eq`,
    `updateTicketStatusFiles_of_loads`).
  - The routines on the text of the files (`buyTicketFiles`, `updateTicketStatusFiles`,
    `updateBookedFieldInFileOnFile`, `viewUpcomingShowsOnFile`): `fgets` with the size of the
    line buffer, the load loop with its bound where it has one, the `sscanf` call, which
    assigns the fields of an array element one conversion after the other so that a failed
    conversion leaves the remaining fields with what the element held before (the arrays
    are not initialised; `slot` is their previous content), and the `fprintf` calls of the
    rewrite.
* A routine that returns before reopening the files for writing leaves the files as they
  were.
* A text longer than the array it is copied into, and more records than the arrays of the
  caller of `buyTicket` hold, are outside the model; the theorems about the files carry
  these bounds as hypotheses.
* Console input is the data the `scanf`/`fgets` calls deliver (`PurchaseInput`): the list
  of seat numbers read by the selection loop, whose length is `seat_quantity`.  The random
  source is the sequence of values `rand()` returns; the clock is the `localtime` fields.
* A read of an array element that was never assigned has no defined value
  (`Returned.unassignedRead`).
-/

namespace TicketSystem

/-- A C string: its characters up to the terminating NUL. -/
abbrev CStr := List Char

/-- The constant `MAX_SHOW` (100) of `utilities.c`. -/
def MAX_SHOW : Nat := 100

/-- The constant `MAX_TICKET` (200) of `utilities.c`. -/
def MAX_TICKET : Nat := 200

/-- The struct `Show` of `utilities.h`. -/
structure Show where
  id : Int
  singer : CStr
  date : CStr
  venue : CStr
  type : CStr
  price : Int
  seats : Int
  booked : CStr
deriving DecidableEq, Repr

/-- The struct `Ticket` of `utilities.h`. -/
structure Ticket where
  id : Int
  ticketNumber : CStr
  userId : Int
  showId : Int
  seatNumber : Int
  paymentMethod : CStr
  paymentAccount : CStr
  transactionNumber : CStr
  status : Int
deriving DecidableEq, Repr

/-- The persisted state: the records of `data/tickets.txt` and of `data/shows.txt`. -/
structure Ledger where
  tickets : List Ticket
  shows : List Show
deriving DecidableEq, Repr

/-! ## String primitives -/

/-- Decimal text of an `int`, as produced by `itoa( n, buf, 10 )` and by `sprintf "%d"`. -/
def itoa : Int → CStr
  | Int.ofNat m => Nat.toDigits 10 m
  | Int.negSucc m => '-' :: Nat.toDigits 10 (m + 1)

/-- The test `strstr( hay, needle ) != NULL`: `needle` occurs in `hay` as a substring. -/
def strstr : CStr → CStr → Bool
  | [], needle => needle.isEmpty
  | c :: hay, needle => needle.isPrefixOf (c :: hay) || strstr hay needle

/-- The tokens `strtok( s, "," )` yields, in order: the maximal comma-free non-empty
pieces of `s`.  `cur` is the token being read. -/
def strtokFrom : CStr → CStr → List CStr
  | cur, [] => if cur = [] then [] else [cur]
  | cur, c :: rest =>
    if c = ',' then (if cur = [] then strtokFrom [] rest else cur :: strtokFrom [] rest)
    else strtokFrom (cur ++ [c]) rest

/-- All tokens of a booked field (the `strtok` loop of `countBookedSeats`). -/
def strtokAll (s : CStr) : List CStr := strtokFrom [] s

/-- The function `countBookedSeats`: the number of comma-separated tokens of the booked field. -/
def countBookedSeats (bookedSeats : CStr) : Nat := (strtokAll bookedSeats).length

/-- The persisted booked format of the specification: the decimal texts of the seat numbers
separated by single commas, the empty string for no seat. -/
def bookedText (l : List Int) : CStr := List.intercalate [','] (l.map itoa)

/-! ## Identifier generation -/

/-- The literal `letters` of `generateRandomCode`. -/
def letters : CStr :=
  ['A', 'B', 'C', 'D', 'E', 'F', 'G', 'H', 'I', 'J', 'K', 'L', 'M',
   'N', 'O', 'P', 'Q', 'R', 'S', 'T', 'U', 'V', 'W', 'X', 'Y', 'Z']

/-- The literal `numbers` of `generateRandomCode`. -/
def numbers : CStr := ['0', '1', '2', '3', '4', '5', '6', '7', '8', '9']

/-- The call `generateRandomCode( code, codeLength )` for `codeLength ≤ 10`: nine characters are
written from the `rand()` values number `pos`, `pos + 1`, ..., and `code[codeLength - 1]` is
set to NUL. -/
def generateRandomCode (rand : Nat → Nat) (pos : Nat) (codeLength : Nat) : CStr :=
  (((List.range 3).map fun i => letters.getD (rand (pos + i) % 26) 'A')
    ++ ((List.range' 3 5).map fun i => numbers.getD (rand (pos + i) % 10) '0')
    ++ [letters.getD (rand (pos + 8) % 26) 'A']).take (codeLength - 1)

/-- The function `generateRandomChar` on the value `r` returned by `rand()`. -/
def generateRandomChar (r : Nat) : Char :=
  let randomNum := r % 36
  if randomNum < 10 then Char.ofNat ('0'.toNat + randomNum)
  else Char.ofNat ('A'.toNat + (randomNum - 10))

/-- The conversion `%02d` of a non-negative value. -/
def fmt02d (n : Nat) : CStr :=
  if n < 10 then '0' :: Nat.toDigits 10 n else Nat.toDigits 10 n

/-- The call `generateTransactionNumber( transactionNumber, size )`: `snprintf` keeps at most
`size - 1` characters of the formatted text. -/
def generateTransactionNumber (rand : Nat → Nat) (pos : Nat) (hour minute second : Nat)
    (size : Nat) : CStr :=
  ([generateRandomChar (rand pos), generateRandomChar (rand (pos + 1)),
     generateRandomChar (rand (pos + 2))]
    ++ fmt02d hour ++ fmt02d minute ++ fmt02d second).take (size - 1)

/-! ## Purchase (`buyTicket`) -/

/-- What `buyTicket` gets from outside the ledgers: random values and the clock. -/
structure Env where
  rand : Nat → Nat
  hour : Nat
  minute : Nat
  second : Nat

/-- What the user types during one `buyTicket` call: the `seat_quantity` seat numbers
(`seats.length` is `seat_quantity`), the payment menu choice and the account line. -/
structure PurchaseInput where
  seats : List Int
  payment_m : Int
  payment_account : CStr
deriving DecidableEq, Repr

/-- How a `buyTicket` call ends. -/
inductive Outcome where
  | showNotFound
  | duplicateSeat
  | seatAlreadyBooked (seat : Int)
  | invalidPayment
  | purchased
deriving DecidableEq, Repr

/-- The seat selection loop (`for k`): `seat_numbers` holds the seats accepted so far, the
second list is what remains to be read.  A seat is first compared with the earlier seats
of the request, then looked up in the booked field with `strstr`. -/
def selectSeats (booked : CStr) : List Int → List Int → Except Outcome (List Int)
  | seat_numbers, [] => .ok seat_numbers
  | seat_numbers, seat_number :: rest =>
    if seat_number ∈ seat_numbers then .error .duplicateSeat
    else if strstr booked (itoa seat_number) then .error (.seatAlreadyBooked seat_number)
    else selectSeats booked (seat_numbers ++ [seat_number]) rest

/-- The payment menu: choices 1, 2, 3 name a method, anything else makes `buyTicket`
return. -/
def paymentMethod (payment_m : Int) : Option CStr :=
  if 1 ≤ payment_m ∧ payment_m ≤ 3 then
    if payment_m = 1 then some ['b', 'K', 'a', 's', 'h']
    else if payment_m = 2 then some ['N', 'a', 'g', 'a', 'd']
    else some ['R', 'o', 'c', 'k', 'e', 't']
  else none

/-- The ticket loop (`tickets[numTickets].id = numTickets; ...; numTickets++`): `k` is the
position in the request, used for `ticketNumbers[k]`, which was filled from the `rand()`
values `9 * k ..`. -/
def issueTickets (rand : Nat → Nat) (userId showId : Int)
    (payment_method payment_account transactionNum : CStr) :
    Nat → Nat → List Int → List Ticket
  | _, _, [] => []
  | numTickets, k, seat :: rest =>
    { id := (numTickets : Int)
      ticketNumber := generateRandomCode rand (9 * k) 10
      userId := userId
      showId := showId
      seatNumber := seat
      paymentMethod := payment_method
      paymentAccount := payment_account
      transactionNumber := transactionNum
      status := 1 } ::
    issueTickets rand userId showId payment_method payment_account transactionNum
      (numTickets + 1) (k + 1) rest

/-- The loop building `updatedBooked`: seat number `j` of the request is appended, after a
comma when the old field is non-empty or `j > 0`, if `strstr` does not find it in the old
field. -/
def appendBooked (booked : CStr) : Nat → List Int → CStr → CStr
  | _, [], updatedBooked => updatedBooked
  | j, selectedSeat :: rest, updatedBooked =>
    if strstr booked (itoa selectedSeat) = false then
      appendBooked booked (j + 1) rest
        ((if booked.length > 0 ∨ j > 0 then updatedBooked ++ [','] else updatedBooked)
          ++ itoa selectedSeat)
    else appendBooked booked (j + 1) rest updatedBooked

/-- The body of `if( shows[i].id == showId )`: either a rejection (`return` before
anything is written) or the new ticket array and the updated show. -/
def purchaseOnShow (env : Env) (tickets : List Ticket) (userId showId : Int)
    (inp : PurchaseInput) (s : Show) : Except Outcome (List Ticket × Show) :=
  match selectSeats s.booked [] inp.seats with
  | .error o => .error o
  | .ok seat_numbers =>
    match paymentMethod inp.payment_m with
    | none => .error .invalidPayment
    | some payment_method =>
      let transactionNum :=
        generateTransactionNumber env.rand (9 * seat_numbers.length)
          env.hour env.minute env.second 10
      .ok (tickets ++ issueTickets env.rand userId showId payment_method inp.payment_account
              transactionNum tickets.length 0 seat_numbers,
           { s with booked := appendBooked s.booked 0 seat_numbers s.booked })

/-- The loop `for( i = 0; i < numShows; ++i )` with its `break` after the first show whose
id is `showId`. -/
def buyLoop (env : Env) (tickets : List Ticket) (userId showId : Int)
    (inp : PurchaseInput) : List Show → Except Outcome (Outcome × List Ticket × List Show)
  | [] => .ok (.showNotFound, tickets, [])
  | s :: rest =>
    if s.id = showId then
      match purchaseOnShow env tickets userId showId inp s with
      | .error o => .error o
      | .ok (tickets1, s1) => .ok (.purchased, tickets1, s1 :: rest)
    else
      match buyLoop env tickets userId showId inp rest with
      | .error o => .error o
      | .ok (o, tickets1, rest1) => .ok (o, tickets1, s :: rest1)

/-- The function `buyTicket` on the loaded arrays: the outcome and the arrays the files are
rewritten from.  On a rejection the function returns before the files are reopened for
writing.  The load itself is part of `buyTicketFiles`. -/
def buyTicket (env : Env) (st : Ledger) (userId showId : Int) (inp : PurchaseInput) :
    Outcome × Ledger :=
  match buyLoop env st.tickets userId showId inp st.shows with
  | .error o => (o, st)
  | .ok (o, tickets1, shows1) => (o, { tickets := tickets1, shows := shows1 })

/-! ## Cancellation (`updateTicketStatus`) -/

/-- The value `booked[i] - '0'` of one character. -/
def digitVal (c : Char) : Int := (c.toNat : Int) - 48

/-- The two nested loops of `updateBookedField`, read character by character: `none` means
the outer loop is between tokens, `some currentSeat` that the inner `while` is inside a
token.  A token that ends at a comma (`i < length`) is written back followed by a comma, a
token ending the string is written back bare; tokens equal to `seatNumber` are dropped. -/
def updateBookedFrom (seatNumber : Int) : Option Int → CStr → CStr
  | none, [] => []
  | some currentSeat, [] => if currentSeat ≠ seatNumber then itoa currentSeat else []
  | none, c :: rest =>
    if c = ',' then updateBookedFrom seatNumber none rest
    else updateBookedFrom seatNumber (some (0 * 10 + digitVal c)) rest
  | some currentSeat, c :: rest =>
    if c = ',' then
      (if currentSeat ≠ seatNumber then itoa currentSeat ++ [','] else [])
        ++ updateBookedFrom seatNumber none rest
    else updateBookedFrom seatNumber (some (currentSeat * 10 + digitVal c)) rest

/-- The call `updateBookedField( booked, seatNumber )`: the new contents of `booked`. -/
def updateBookedField (booked : CStr) (seatNumber : Int) : CStr :=
  updateBookedFrom seatNumber none booked

/-- The assignment through `shows[showId].booked` for an index inside the array. -/
def updateShowAt (seatNumber : Int) : Nat → List Show → List Show
  | _, [] => []
  | 0, s :: rest => { s with booked := updateBookedField s.booked seatNumber } :: rest
  | i + 1, s :: rest => s :: updateShowAt seatNumber i rest

/-- The call `updateBookedFieldInFile( showId, seatNumber )` on the show records of a file
whose records load back as they were saved: at most `MAX_SHOW` records are loaded; `showId`
is used as an index into the loaded array; the file is rewritten only when the index is
inside it.  The load itself is part of `updateBookedFieldInFileOnFile`. -/
def updateBookedFieldInFile (file : List Show) (showId seatNumber : Int) : List Show :=
  let shows := file.take MAX_SHOW
  if 0 ≤ showId ∧ showId < (shows.length : Int) then
    updateShowAt seatNumber showId.toNat shows
  else file

/-- The loop of `updateTicketStatus` over the loaded tickets.  The flag tells whether
"Ticket is already canceled" was printed (followed by `break`). -/
def cancelLoop (ticketId newStatus : Int) :
    List Ticket → List Show → Bool × List Ticket × List Show
  | [], shows => (false, [], shows)
  | t :: rest, shows =>
    if t.id = ticketId then
      if t.status = 0 then (true, t :: rest, shows)
      else
        let r := cancelLoop ticketId newStatus rest
                  (updateBookedFieldInFile shows t.showId t.seatNumber)
        (r.1, { t with status := newStatus } :: r.2.1, r.2.2)
    else
      let r := cancelLoop ticketId newStatus rest shows
      (r.1, t :: r.2.1, r.2.2)

/-- The call `updateTicketStatus( ticketId, newStatus )` on the records of files whose
records load back as they were saved: at most `MAX_TICKET` records are loaded and the ticket
file is rewritten from the loaded array.  The load itself is part of
`updateTicketStatusFiles`. -/
def updateTicketStatus (st : Ledger) (ticketId newStatus : Int) : Bool × Ledger :=
  let r := cancelLoop ticketId newStatus (st.tickets.take MAX_TICKET) st.shows
  (r.1, { tickets := r.2.1, shows := r.2.2 })

/-! ## Ledger predicates used by the statements -/

/-- Status 1. -/
def Ticket.active (t : Ticket) : Bool := t.status = 1

/-- The (showId, seatNumber) pairs held by Active tickets, in ledger order. -/
def activeSeats (tickets : List Ticket) : List (Int × Int) :=
  (tickets.filter Ticket.active).map fun t => (t.showId, t.seatNumber)

/-- Seat `n` is in the booked list of a booked field: its decimal text is one of the
comma-separated tokens. -/
def seatBooked (booked : CStr) (n : Int) : Prop := itoa n ∈ strtokAll booked

instance decSeatBooked (booked : CStr) (n : Int) : Decidable (seatBooked booked n) :=
  inferInstanceAs (Decidable (itoa n ∈ strtokAll booked))

/-- A consistent ledger: no two Active tickets share (showId, seatNumber), and the seat of
every Active ticket is in the booked list of every show carrying its showId. -/
def Consistent (st : Ledger) : Prop :=
  (activeSeats st.tickets).Nodup ∧
  ∀ t ∈ st.tickets, t.active = true → ∀ s ∈ st.shows, s.id = t.showId →
    seatBooked s.booked t.seatNumber

instance decConsistent (st : Ledger) : Decidable (Consistent st) :=
  inferInstanceAs (Decidable ((activeSeats st.tickets).Nodup ∧
    ∀ t ∈ st.tickets, t.active = true → ∀ s ∈ st.shows, s.id = t.showId →
      seatBooked s.booked t.seatNumber))

/-- One step of use of the system: a purchase or a cancellation. -/
inductive Op where
  | buy (env : Env) (userId showId : Int) (inp : PurchaseInput)
  | cancel (ticketId : Int)

/-- The ledger after one operation. -/
def Op.run (st : Ledger) : Op → Ledger
  | .buy env userId showId inp => (buyTicket env st userId showId inp).2
  | .cancel ticketId => (updateTicketStatus st ticketId 0).2

/-- The ledger after a sequence of operations. -/
def runOps (st : Ledger) (ops : List Op) : Ledger := ops.foldl Op.run st

/-! ## Auxiliary definitions and sample data -/

/-- Value of a token as the inner `while` of `updateBookedField` accumulates it. -/
def seatValue (tok : CStr) : Int := tok.foldl (fun cur c => cur * 10 + digitVal c) 0

/-- A random sequence and a clock reading (09:05:30) for the examples. -/
def demoEnv : Env := { rand := fun i => 7 * i + 3, hour := 9, minute := 5, second := 30 }

/-- A show record with the given id, capacity and booked field. -/
def demoShow (id seats : Int) (booked : CStr) : Show :=
  { id := id, singer := ['A', 'y', 'u', 'b'], date := ['1', '5', ',', '8', ',', '2', '0', '3', '0'],
    venue := ['D', 'h', 'a', 'k', 'a'], type := ['R', 'o', 'c', 'k'], price := 500,
    seats := seats, booked := booked }

/-- A purchase of the given seats paid with the first payment method. -/
def demoInput (seats : List Int) : PurchaseInput :=
  { seats := seats, payment_m := 1, payment_account := ['0', '1', '7'] }

/-- The "Available seats" listing of `buyTicket`: the seat numbers `j` from 1 to `seats`
for which `strstr` does not find the decimal text of `j` in the booked field. -/
def availableSeats (s : Show) : List Int :=
  ((List.range s.seats.toNat).map fun i => (i : Int) + 1).filter
    fun j => !strstr s.booked (itoa j)

/-- Two shows with ids 1 and 2, nothing booked, no tickets. -/
def twoShows : Ledger := { tickets := [], shows := [demoShow 1 5 [], demoShow 2 5 []] }

/-- Seat 3 bought on show 2 and on show 1, the second ticket cancelled, seat 3 of show 2
bought again. -/
def doubleBookingOps : List Op :=
  [.buy demoEnv 9 2 (demoInput [3]), .buy demoEnv 8 1 (demoInput [3]), .cancel 1,
   .buy demoEnv 7 2 (demoInput [3])]

/-- A cancelled ticket with the given id. -/
def cancelledTicket (i : Nat) : Ticket :=
  { id := (i : Int), ticketNumber := ['A', 'B', 'C', '0', '0', '0', '0', '0', 'D'], userId := 9,
    showId := 0, seatNumber := 1, paymentMethod := ['b', 'K', 'a', 's', 'h'],
    paymentAccount := ['0', '1', '7'],
    transactionNumber := ['A', 'B', 'C', '0', '9', '0', '5', '3', '0'],
    status := 0 }

/-- A ticket file with 201 records. -/
def bigLedger : Ledger := { tickets := (List.range 201).map cancelledTicket, shows := [] }

/-- Two cancelled tickets and one show. -/
def cancelledPair : Ledger :=
  { tickets := [cancelledTicket 0, cancelledTicket 1], shows := [demoShow 0 5 ['1', ',', '2']] }

/-! ## Reading a booked field -/

/-- The seat numbers `updateBookedField` reads from a booked field: the comma-separated
tokens, each accumulated digit by digit. -/
def parseBooked (booked : CStr) : List Int := (strtokAll booked).map seatValue

/-! ## Record lines of the show file (`fprintf` / `sscanf`) -/

/-- The C `isspace` test of the "C" locale. -/
def isspace (c : Char) : Bool :=
  c = ' ' || c = '\t' || c = '\n' || c = '\r' || c = Char.ofNat 11 || c = Char.ofNat 12

/-- Leading white space skipped by a `%d` conversion. -/
def skipSpace : CStr → CStr
  | [] => []
  | c :: rest => if isspace c then skipSpace rest else c :: rest

/-- The digits consumed by a `%d` conversion and the value accumulated from `acc`. -/
def scanDigits (acc : Int) : CStr → Int × CStr
  | [] => (acc, [])
  | c :: rest => if c.isDigit then scanDigits (acc * 10 + digitVal c) rest else (acc, c :: rest)

/-- The conversion `%d` of `sscanf`: white space, an optional sign, at least one digit.
The result is the value and the unread input, `none` on a matching failure. -/
def scanInt (s : CStr) : Option (Int × CStr) :=
  match skipSpace s with
  | [] => none
  | c :: rest =>
    if c = '-' ∨ c = '+' then
      match rest with
      | [] => none
      | d :: _ =>
        if d.isDigit then
          some ((if c = '-' then -(scanDigits 0 rest).1 else (scanDigits 0 rest).1),
                (scanDigits 0 rest).2)
        else none
    else if c.isDigit then some (scanDigits 0 (c :: rest))
    else none

/-- The characters a scanset `%[^stop]` accepts and the unread input. -/
def scanUntil (stop : Char) : CStr → CStr × CStr
  | [] => ([], [])
  | c :: rest =>
    if c = stop then ([], c :: rest)
    else (c :: (scanUntil stop rest).1, (scanUntil stop rest).2)

/-- The conversion `%[^stop]` of `sscanf`: it fails when no character is accepted. -/
def scanSet (stop : Char) (s : CStr) : Option (CStr × CStr) :=
  if (scanUntil stop s).1 = [] then none else some (scanUntil stop s)

/-- A literal character of the format: the unread input after it, `none` on a mismatch. -/
def matchLit (lit : Char) : CStr → Option CStr
  | [] => none
  | c :: rest => if c = lit then some rest else none

/-- The record line `fprintf( file, "%d|%s|%s|%s|%s|%d|%d|%s\n", ... )` writes for a show. -/
def fprintfShow (s : Show) : CStr :=
  itoa s.id ++ '|' :: s.singer ++ '|' :: s.date ++ '|' :: s.venue ++ '|' :: s.type
    ++ '|' :: itoa s.price ++ '|' :: itoa s.seats ++ '|' :: s.booked ++ ['\n']

/-- The load `sscanf( line, "%d|%[^|]|%[^|]|%[^|]|%[^|]|%d|%d|%[^\n]", &shows[n].id, ... )`:
`slot` is what the array element held before the call; the conversions assign their fields
one after the other and the first failure leaves the remaining fields as they were. -/
def sscanfShow (slot : Show) (line : CStr) : Show :=
  match scanInt line with
  | none => slot
  | some (id, r) =>
  let s1 := { slot with id := id }
  match (matchLit '|' r).bind (scanSet '|') with
  | none => s1
  | some (singer, r) =>
  let s2 := { s1 with singer := singer }
  match (matchLit '|' r).bind (scanSet '|') with
  | none => s2
  | some (date, r) =>
  let s3 := { s2 with date := date }
  match (matchLit '|' r).bind (scanSet '|') with
  | none => s3
  | some (venue, r) =>
  let s4 := { s3 with venue := venue }
  match (matchLit '|' r).bind (scanSet '|') with
  | none => s4
  | some (type, r) =>
  let s5 := { s4 with type := type }
  match (matchLit '|' r).bind scanInt with
  | none => s5
  | some (price, r) =>
  let s6 := { s5 with price := price }
  match (matchLit '|' r).bind scanInt with
  | none => s6
  | some (seats, r) =>
  let s7 := { s6 with seats := seats }
  match (matchLit '|' r).bind (scanSet '\n') with
  | none => s7
  | some (booked, _) => { s7 with booked := booked }

/-- The header line `buyTicket` writes to the show file. -/
def buyTicketShowHeader : CStr := "id|singer|date|type|price|seats|booked\n".toList

/-- The header line `updateBookedFieldInFile` writes to the show file. -/
def updateBookedFieldInFileHeader : CStr :=
  "id|singer|date|venue|type|price|seats|booked\n".toList

/-- The show file as `buyTicket` rewrites it: header, then one line per show. -/
def buyTicketShowFile (shows : List Show) : CStr :=
  buyTicketShowHeader ++ (shows.map fprintfShow).flatten

/-- The show file as `updateBookedFieldInFile` rewrites it. -/
def updateBookedFieldInFileShowFile (shows : List Show) : CStr :=
  updateBookedFieldInFileHeader ++ (shows.map fprintfShow).flatten

/-- The first line of a text, without its newline. -/
def firstLine (text : CStr) : CStr := (scanUntil '\n' text).1

/-- The fields of the show record in record order, as the specification names them. -/
def showColumns : List CStr :=
  ["id".toList, "singer".toList, "date".toList, "venue".toList, "type".toList,
   "price".toList, "seats".toList, "booked".toList]

/-! ## Listing (`viewUpcomingShows`) -/

/-- The date format of the show file: `day,month,year`. -/
def dateText (day month year : Int) : CStr :=
  itoa day ++ ',' :: itoa month ++ ',' :: itoa year

/-- The parse `sscanf( date, "%d,%d,%d", &showDay, &showMonth, &showYear )`: `vars` holds
the three variables (day, month, year) before the call. -/
def sscanfDate (vars : Int × Int × Int) (date : CStr) : Int × Int × Int :=
  match scanInt date with
  | none => vars
  | some (showDay, r) =>
  match (matchLit ',' r).bind scanInt with
  | none => (showDay, vars.2.1, vars.2.2)
  | some (showMonth, r) =>
  match (matchLit ',' r).bind scanInt with
  | none => (showDay, showMonth, vars.2.2)
  | some (showYear, _) => (showDay, showMonth, showYear)

/-- The date test of `viewUpcomingShows` on the parsed show date and the current date. -/
def upcomingTest (showDay showMonth showYear currentDay currentMonth currentYear : Int) :
    Bool :=
  decide (showYear > currentYear ∨ (showYear = currentYear ∧ showMonth > currentMonth) ∨
    (showYear = currentYear ∧ showMonth = currentMonth ∧ showDay ≥ currentDay))

/-- One block printed by `viewUpcomingShows`: the serial number, the show and the number
printed as "Available Seats". -/
structure Listed where
  serial : Int
  shown : Show
  availableSeats : Int
deriving DecidableEq, Repr

/-- The `while` loop of `viewUpcomingShows` over the loaded shows; `serial` is the next
serial number, `today` the current (day, month, year), `vars` the content of the variables
`showDay`, `showMonth`, `showYear` before the date of the record is parsed: for the first
record what the stack held, afterwards the values of the previous record. -/
def listLoop (today : Int × Int × Int) :
    Int × Int × Int → Bool → Int → List Show → List Listed
  | _, _, _, [] => []
  | vars, viewContent, serial, s :: rest =>
    if viewContent = true ∧
        upcomingTest (sscanfDate vars s.date).1 (sscanfDate vars s.date).2.1
          (sscanfDate vars s.date).2.2 today.1 today.2.1 today.2.2 = true then
      { serial := serial, shown := s,
        availableSeats := s.seats - (countBookedSeats s.booked : Int) } ::
        listLoop today (sscanfDate vars s.date) viewContent (serial + 1) rest
    else listLoop today (sscanfDate vars s.date) viewContent serial rest

/-- The function `selectPopup( serial )` on the numbers typed: `none` when the input ends
before a number is accepted. -/
def selectPopup (serial : Int) : List Int → Option Int
  | [] => none
  | selectedCustomSerial :: rest =>
    if selectedCustomSerial ≥ 1 ∧ selectedCustomSerial ≤ serial then some selectedCustomSerial
    else if selectedCustomSerial = -1 then some (-1)
    else selectPopup serial rest

/-- What a call returns. -/
inductive Returned where
  | value (v : Int)
  | unassignedRead (index : Int)
  | noInput
deriving DecidableEq, Repr

/-- The read `availableShowId[index]`: the array holds the ids of the listed shows at the
indices `0 .. N - 1`; no other element was assigned. -/
def readAvailableShowId (ids : List Int) (index : Int) : Returned :=
  if 0 ≤ index ∧ index < (ids.length : Int) then
    match ids.get? index.toNat with
    | some v => .value v
    | none => .unassignedRead index
  else .unassignedRead index

/-- The function `viewUpcomingShows` on the loaded shows: the blocks printed and what is
returned.  `typed` are the numbers entered at the selection prompt. -/
def viewUpcomingShows (shows : List Show) (today vars : Int × Int × Int)
    (viewContent hasSelect : Bool) (typed : List Int) : List Listed × Returned :=
  let listed := listLoop today vars viewContent 1 shows
  let serial : Int := 1 + (listed.length : Int)
  if serial - 1 = 0 then (listed, .value (-1))
  else if hasSelect then
    match selectPopup serial typed with
    | none => (listed, .noInput)
    | some selectedCustomSerial =>
      (listed, readAvailableShowId (listed.map fun e => e.shown.id) (selectedCustomSerial - 1))
  else (listed, .value (-1))

/-- Calendar order on (day, month, year) dates: by year, then month, then day. -/
def DateLE (a b : Int × Int × Int) : Prop :=
  toLex (a.2.2, toLex (a.2.1, a.1)) ≤ toLex (b.2.2, toLex (b.2.1, b.1))

instance decDateLE (a b : Int × Int × Int) : Decidable (DateLE a b) :=
  decidable_of_iff
    (a.2.2 < b.2.2 ∨ a.2.2 = b.2.2 ∧ (a.2.1 < b.2.1 ∨ a.2.1 = b.2.1 ∧ a.1 ≤ b.1))
    (by
      unfold DateLE
      rw [Prod.Lex.le_iff]
      simp only
      constructor
      · rintro (h | ⟨h1, h2⟩)
        · exact Or.inl h
        · exact Or.inr ⟨h1, (Prod.Lex.le_iff _ _).2 h2⟩
      · rintro (h | ⟨h1, h2⟩)
        · exact Or.inl h
        · exact Or.inr ⟨h1, (Prod.Lex.le_iff _ _).1 h2⟩)

/-! ## Login (`login.c`) -/

/-- The struct `User` of `login.h`. -/
structure User where
  id : Int
  username : CStr
  password : CStr
deriving DecidableEq, Repr

/-- The constant `MAX_USERS` (100) of `login.c`. -/
def MAX_USERS : Nat := 100

/-- The function `registerUser` on the lines typed: the user array and the unread lines
afterwards, `none` when the input ends.  Nothing is added when the limit is reached or the
username exists. -/
def registerUser (users : List User) (lines : List CStr) : Option (List User × List CStr) :=
  if users.length ≥ MAX_USERS then some (users, lines)
  else
    match lines with
    | [] => none
    | username :: rest =>
      if users.any (fun u => decide (u.username = username)) then some (users, rest)
      else
        match rest with
        | [] => none
        | password :: rest2 =>
          some (users ++ [{ id := (users.length : Int), username := username,
                            password := password }], rest2)

/-- The search loop of `loginUser`: the first index `i` from `i0` on with matching username
and password. -/
def findUser (username password : CStr) : Nat → List User → Option Nat
  | _, [] => none
  | i, u :: rest =>
    if u.username = username ∧ u.password = password then some i
    else findUser username password (i + 1) rest

/-- The function `loginUser`: it asks again (by calling itself) until a username and
password match; `none` when the input ends first. -/
def loginUser (users : List User) : List CStr → Option (Int × List CStr)
  | username :: password :: rest =>
    match findUser username password 0 users with
    | some i => some ((i : Int), rest)
    | none => loginUser users rest
  | _ => none

/-- The `do ... while( option != 3 && loggedInUserId == -1 )` loop of `login`: `options`
are the numbers typed at the menu, `lines` the lines typed at the other prompts.  The
result is `loggedInUserId` and the user array that is saved. -/
def loginLoop : List User → List Int → List CStr → Option (Int × List User)
  | _, [], _ => none
  | users, option :: options, lines =>
    if option = 1 then
      match registerUser users lines with
      | none => none
      | some (users1, lines1) =>
        if (users1.length : Int) - 1 = -1 then loginLoop users1 options lines1
        else some ((users1.length : Int) - 1, users1)
    else if option = 2 then
      match loginUser users lines with
      | none => none
      | some (loggedInUserId, _) => some (loggedInUserId, users)
    else if option = 3 then some (-1, users)
    else loginLoop users options lines

/-- The function `login` on the loaded users. -/
def login (users : List User) (options : List Int) (lines : List CStr) :
    Option (Int × List User) :=
  loginLoop users options lines

/-- A stored user. -/
def demoUser : User :=
  { id := 0, username := "alice".toList, password := "secret".toList }

/-- The unread input starts with no digit. -/
def NoDigitAhead (r : CStr) : Prop := ∀ c ∈ r.head?, c.isDigit = false

/-- Two shows, one in 2030 and one in 2020. -/
def twoDates : List Show :=
  [demoShow 1 5 ['2', ',', '3'],
   { demoShow 2 8 [] with date := "1,1,2020".toList },
   { demoShow 3 8 ['7'] with date := "31,12,2030".toList }]

/-- The ticket ids are the positions in the ledger: 0, 1, 2, ... -/
def IdsArePositions (tickets : List Ticket) : Prop :=
  tickets.map Ticket.id = (List.range tickets.length).map Int.ofNat

/-! ## The data files: `fgets`, load loops and saves -/

/-- The constant `MAX_LENGTH` (500) of `utilities.h`: the size of the text fields of the
structs and of the line buffers declared with it. -/
def MAX_LENGTH : Nat := 500

/-- The characters `fgets` stores when `room` more characters fit: it stops after a newline,
at the end of the stream, or when the room is used up.  The second component is the unread
stream. -/
def fgetsAux : Nat → CStr → CStr × CStr
  | 0, stream => ([], stream)
  | _, [] => ([], [])
  | room + 1, c :: rest =>
    if c = '\n' then ([c], rest)
    else (c :: (fgetsAux room rest).1, (fgetsAux room rest).2)

/-- The call `fgets( line, size, file )`: `none` (NULL) at the end of the stream, otherwise
the line stored (at most `size - 1` characters) and the unread stream. -/
def fgets (size : Nat) (stream : CStr) : Option (CStr × CStr) :=
  if stream = [] then none else some (fgetsAux (size - 1) stream)

/-- The test `n < MAX` of a load loop that has one; `none` is a loop without a bound. -/
def underLimit (limit : Option Nat) (n : Nat) : Bool :=
  match limit with
  | none => true
  | some m => decide (n < m)

/-- The load loop `while( fgets( line, size, file ) [&& n < MAX] ) { sscanf( line, ...,
&array[n]... ); n++; }`: `scan` is the `sscanf` call, `slot n` what the array element `n` held
before the call, `fuel` bounds the number of lines read. -/
def loadLoop {α : Type} (scan : α → CStr → α) (slot : Nat → α) (size : Nat)
    (limit : Option Nat) : Nat → Nat → CStr → List α
  | 0, _, _ => []
  | fuel + 1, n, stream =>
    match fgets size stream with
    | none => []
    | some (line, rest) =>
      if underLimit limit n = true then
        scan (slot n) line :: loadLoop scan slot size limit fuel (n + 1) rest
      else []

/-- A load routine: one `fgets` for the header line, then the load loop over the rest of
the file (every `fgets` of the loop consumes a character, so the length of the rest is
enough fuel). -/
def loadRecords {α : Type} (scan : α → CStr → α) (slot : Nat → α) (size : Nat)
    (limit : Option Nat) (file : CStr) : List α :=
  match fgets size file with
  | none => []
  | some (_, rest) => loadLoop scan slot size limit rest.length 0 rest

/-- The record line `fprintf( file, "%d|%s|%d|%d|%d|%s|%s|%s|%d\n", ... )` writes for a
ticket. -/
def fprintfTicket (t : Ticket) : CStr :=
  itoa t.id ++ '|' :: t.ticketNumber ++ '|' :: itoa t.userId ++ '|' :: itoa t.showId
    ++ '|' :: itoa t.seatNumber ++ '|' :: t.paymentMethod ++ '|' :: t.paymentAccount
    ++ '|' :: t.transactionNumber ++ '|' :: itoa t.status ++ ['\n']

/-- The load `sscanf( line, "%d|%[^|]|%d|%d|%d|%[^|]|%[^|]|%[^|]|%d", &tickets[n].id, ... )`:
`slot` is what the array element held before the call; the first conversion that fails
leaves the remaining fields as they were. -/
def sscanfTicket (slot : Ticket) (line : CStr) : Ticket :=
  match scanInt line with
  | none => slot
  | some (id, r) =>
  let t1 := { slot with id := id }
  match (matchLit '|' r).bind (scanSet '|') with
  | none => t1
  | some (ticketNumber, r) =>
  let t2 := { t1 with ticketNumber := ticketNumber }
  match (matchLit '|' r).bind scanInt with
  | none => t2
  | some (userId, r) =>
  let t3 := { t2 with userId := userId }
  match (matchLit '|' r).bind scanInt with
  | none => t3
  | some (showId, r) =>
  let t4 := { t3 with showId := showId }
  match (matchLit '|' r).bind scanInt with
  | none => t4
  | some (seatNumber, r) =>
  let t5 := { t4 with seatNumber := seatNumber }
  match (matchLit '|' r).bind (scanSet '|') with
  | none => t5
  | some (paymentMethod, r) =>
  let t6 := { t5 with paymentMethod := paymentMethod }
  match (matchLit '|' r).bind (scanSet '|') with
  | none => t6
  | some (paymentAccount, r) =>
  let t7 := { t6 with paymentAccount := paymentAccount }
  match (matchLit '|' r).bind (scanSet '|') with
  | none => t7
  | some (transactionNumber, r) =>
  let t8 := { t7 with transactionNumber := transactionNumber }
  match (matchLit '|' r).bind scanInt with
  | none => t8
  | some (status, _) => { t8 with status := status }

/-- The header line `buyTicket` and `updateTicketStatus` write to the ticket file. -/
def ticketHeader : CStr :=
  "id|ticket_number|user_id|show_id|seat_number|payment_method|payment_account|".toList
    ++ "transaction_number|status\n".toList

/-- The ticket file as `buyTicket` and `updateTicketStatus` rewrite it. -/
def saveTickets (tickets : List Ticket) : CStr :=
  ticketHeader ++ (tickets.map fprintfTicket).flatten

/-- The constant `MAX_TICKET` (100) of `menu.c`: the length of the array `tickets` that
`userMenu` hands to `buyTicket` (the array `shows` it hands over has `MAX_SHOW` elements). -/
def MENU_MAX_TICKET : Nat := 100

/-- The routine `buyTicket` on the two files: both are loaded through `line[MAX_LENGTH * 3]`
into the caller's arrays (`ticketSlot`, `showSlot`: what their elements held before; the
load loops have no bound), the loop runs on the loaded arrays, and the files are rewritten
from the arrays unless the routine returned on a rejection.  The result is the outcome, the
ticket file and the show file. -/
def buyTicketFiles (env : Env) (ticketSlot : Nat → Ticket) (showSlot : Nat → Show)
    (ticketFile showFile : CStr) (userId showId : Int) (inp : PurchaseInput) :
    Outcome × CStr × CStr :=
  match buyLoop env (loadRecords sscanfTicket ticketSlot (MAX_LENGTH * 3) none ticketFile)
      userId showId inp (loadRecords sscanfShow showSlot (MAX_LENGTH * 3) none showFile) with
  | .error o => (o, ticketFile, showFile)
  | .ok (o, tickets1, shows1) => (o, saveTickets tickets1, buyTicketShowFile shows1)

/-- The routine `updateBookedFieldInFile` on the show file: at most `MAX_SHOW` records are
loaded through `line[200]` into the local array `Show shows[MAX_SHOW]` (`showSlot`: what its
elements held before); the file is rewritten only when `showId` is an index of the loaded
array. -/
def updateBookedFieldInFileOnFile (showSlot : Nat → Show) (showFile : CStr)
    (showId seatNumber : Int) : CStr :=
  if 0 ≤ showId ∧
      showId < ((loadRecords sscanfShow showSlot 200 (some MAX_SHOW) showFile).length : Int)
  then
    updateBookedFieldInFileShowFile
      (updateShowAt seatNumber showId.toNat
        (loadRecords sscanfShow showSlot 200 (some MAX_SHOW) showFile))
  else showFile

/-- The loop of `updateTicketStatus` over the loaded tickets, with the show file the calls
of `updateBookedFieldInFile` read and rewrite (`showSlot`: what the elements of the local
array of `updateBookedFieldInFile` held before a call). -/
def cancelLoopOnFile (showSlot : Nat → Show) (ticketId newStatus : Int) :
    List Ticket → CStr → Bool × List Ticket × CStr
  | [], showFile => (false, [], showFile)
  | t :: rest, showFile =>
    if t.id = ticketId then
      if t.status = 0 then (true, t :: rest, showFile)
      else
        let r := cancelLoopOnFile showSlot ticketId newStatus rest
                  (updateBookedFieldInFileOnFile showSlot showFile t.showId t.seatNumber)
        (r.1, { t with status := newStatus } :: r.2.1, r.2.2)
    else
      let r := cancelLoopOnFile showSlot ticketId newStatus rest showFile
      (r.1, t :: r.2.1, r.2.2)

/-- The routine `updateTicketStatus` on the two files: at most `MAX_TICKET` records are
loaded through `line[200]` into a local array (`ticketSlot`: what its elements held before)
and the ticket file is rewritten from that array.  The result is whether "Ticket is already
canceled" was printed, the ticket file and the show file. -/
def updateTicketStatusFiles (ticketSlot : Nat → Ticket) (showSlot : Nat → Show)
    (ticketFile showFile : CStr) (ticketId newStatus : Int) : Bool × CStr × CStr :=
  ((cancelLoopOnFile showSlot ticketId newStatus
      (loadRecords sscanfTicket ticketSlot 200 (some MAX_TICKET) ticketFile) showFile).1,
   saveTickets (cancelLoopOnFile showSlot ticketId newStatus
      (loadRecords sscanfTicket ticketSlot 200 (some MAX_TICKET) ticketFile) showFile).2.1,
   (cancelLoopOnFile showSlot ticketId newStatus
      (loadRecords sscanfTicket ticketSlot 200 (some MAX_TICKET) ticketFile) showFile).2.2)

/-- The routine `viewUpcomingShows` on the show file: the records are loaded through
`line[MAX_LENGTH]` into the local array `Show shows[100]` (`showSlot`: what its elements
held before; the load loop has no bound). -/
def viewUpcomingShowsOnFile (showSlot : Nat → Show) (showFile : CStr)
    (today vars : Int × Int × Int) (viewContent hasSelect : Bool) (typed : List Int) :
    List Listed × Returned :=
  viewUpcomingShows (loadRecords sscanfShow showSlot MAX_LENGTH none showFile)
    today vars viewContent hasSelect typed

/-- A text is one line that `fgets` with a buffer of `size` bytes reads whole: it ends with
its only newline and has at most `size - 1` characters. -/
def IsLine (size : Nat) (l : CStr) : Prop :=
  l.getLast? = some '\n' ∧ '\n' ∉ l.dropLast ∧ l.length + 1 ≤ size

instance decIsLine (size : Nat) (l : CStr) : Decidable (IsLine size l) :=
  inferInstanceAs (Decidable (l.getLast? = some '\n' ∧ '\n' ∉ l.dropLast ∧ l.length + 1 ≤ size))

/-- A text field that `%[^|]` reads back from a record line and that fits its array:
non-empty, without `|` and newline, shorter than `MAX_LENGTH`. -/
def FieldOk (f : CStr) : Prop := f ≠ [] ∧ '|' ∉ f ∧ '\n' ∉ f ∧ f.length < MAX_LENGTH

instance decFieldOk (f : CStr) : Decidable (FieldOk f) :=
  inferInstanceAs (Decidable (f ≠ [] ∧ '|' ∉ f ∧ '\n' ∉ f ∧ f.length < MAX_LENGTH))

/-- A show record whose line loads back as the record through a line buffer of `size`
bytes: the text fields are read back by `%[^|]`, the booked field is non-empty, without
newline and fits its array, the line fits the buffer. -/
def ShowLoads (size : Nat) (s : Show) : Prop :=
  FieldOk s.singer ∧ FieldOk s.date ∧ FieldOk s.venue ∧ FieldOk s.type ∧
  s.booked ≠ [] ∧ '\n' ∉ s.booked ∧ s.booked.length < MAX_LENGTH ∧
  (fprintfShow s).length + 1 ≤ size

instance decShowLoads (size : Nat) (s : Show) : Decidable (ShowLoads size s) :=
  inferInstanceAs (Decidable (FieldOk s.singer ∧ FieldOk s.date ∧ FieldOk s.venue ∧
    FieldOk s.type ∧ s.booked ≠ [] ∧ '\n' ∉ s.booked ∧ s.booked.length < MAX_LENGTH ∧
    (fprintfShow s).length + 1 ≤ size))

/-- A ticket record whose line loads back as the record through a line buffer of `size`
bytes. -/
def TicketLoads (size : Nat) (t : Ticket) : Prop :=
  FieldOk t.ticketNumber ∧ FieldOk t.paymentMethod ∧ FieldOk t.paymentAccount ∧
  FieldOk t.transactionNumber ∧ (fprintfTicket t).length + 1 ≤ size

instance decTicketLoads (size : Nat) (t : Ticket) : Decidable (TicketLoads size t) :=
  inferInstanceAs (Decidable (FieldOk t.ticketNumber ∧ FieldOk t.paymentMethod ∧
    FieldOk t.paymentAccount ∧ FieldOk t.transactionNumber ∧
    (fprintfTicket t).length + 1 ≤ size))

/-- An array whose elements all hold the given show. -/
def showSlots (s : Show) : Nat → Show := fun _ => s

/-- An array whose elements all hold the given ticket. -/
def ticketSlots (t : Ticket) : Nat → Ticket := fun _ => t

/-- A ticket with zero numbers and empty texts (zeroed memory). -/
def zeroTicket : Ticket :=
  { id := 0, ticketNumber := [], userId := 0, showId := 0, seatNumber := 0,
    paymentMethod := [], paymentAccount := [], transactionNumber := [], status := 0 }

/-- A show with zero numbers and empty texts (zeroed memory). -/
def zeroShow : Show :=
  { id := 0, singer := [], date := [], venue := [], type := [], price := 0, seats := 0,
    booked := [] }

/-- The show file with the eight-column header and the given records. -/
def showFileOf (shows : List Show) : CStr := updateBookedFieldInFileShowFile shows

/-- A purchase of seat 3 paid from an account of 199 zeros, the longest line the account
prompt of `buyTicket` stores. -/
def longAccountInput : PurchaseInput :=
  { seats := [3], payment_m := 1, payment_account := List.replicate 199 '0' }

/-- Two Active tickets of user 9 for seats 1 and 2 of show 0. -/
def activePair : List Ticket :=
  issueTickets demoEnv.rand 9 0 ['b', 'K', 'a', 's', 'h'] ['0', '1', '7']
    ['A', 'B', 'C', '0', '9', '0', '5', '3', '0'] 0 0 [1, 2]

/-! ## Theorems

### Substring test and decimal texts -/

theorem strstr_iff (hay needle : CStr) : strstr hay needle = true ↔ needle <:+: hay := by
  induction hay with
  | nil => simp [strstr, List.isEmpty_iff]
  | cons c hay ih =>
    simp only [strstr, Bool.or_eq_true, ih, List.isPrefixOf_iff_prefix]
    rw [List.infix_cons_iff]

theorem strstr_false_iff (hay needle : CStr) : strstr hay needle = false ↔ ¬ needle <:+: hay := by
  rw [← strstr_iff]; simp

theorem digitChar_mem_numbers (n : Nat) : Nat.digitChar (n % 10) ∈ numbers := by
  have h : n % 10 < 10 := Nat.mod_lt _ (by decide)
  generalize n % 10 = m at h
  interval_cases m <;> decide

theorem digitVal_digitChar (n : Nat) : digitVal (Nat.digitChar (n % 10)) = ((n % 10 : Nat) : Int) := by
  have h : n % 10 < 10 := Nat.mod_lt _ (by decide)
  generalize n % 10 = m at h
  interval_cases m <;> decide

theorem toDigitsCore_append (f : Nat) : ∀ (n : Nat) (ds : List Char),
    Nat.toDigitsCore 10 f n ds = Nat.toDigitsCore 10 f n [] ++ ds := by
  induction f with
  | zero => intro n ds; simp [Nat.toDigitsCore]
  | succ f ih =>
    intro n ds
    simp only [Nat.toDigitsCore]
    split
    · simp
    · rw [ih (n / 10) (Nat.digitChar (n % 10) :: ds), ih (n / 10) [Nat.digitChar (n % 10)]]
      simp

theorem toDigitsCore_mem (f : Nat) : ∀ (n : Nat) (c : Char),
    c ∈ Nat.toDigitsCore 10 f n [] → c ∈ numbers := by
  induction f with
  | zero => intro n c h; simp [Nat.toDigitsCore] at h
  | succ f ih =>
    intro n c h
    simp only [Nat.toDigitsCore] at h
    split at h
    · simp only [List.mem_singleton] at h
      subst h; exact digitChar_mem_numbers n
    · rw [toDigitsCore_append] at h
      rcases List.mem_append.1 h with h | h
      · exact ih _ _ h
      · simp only [List.mem_singleton] at h
        subst h; exact digitChar_mem_numbers n

theorem toDigits_ne_nil (n : Nat) : Nat.toDigits 10 n ≠ [] := by
  unfold Nat.toDigits
  simp only [Nat.toDigitsCore]
  split
  · simp
  · rw [toDigitsCore_append]; simp

theorem toDigits_mem (n : Nat) (c : Char) (h : c ∈ Nat.toDigits 10 n) : c ∈ numbers :=
  toDigitsCore_mem _ _ _ h

theorem seatValue_toDigitsCore (f : Nat) : ∀ n : Nat, n < f →
    seatValue (Nat.toDigitsCore 10 f n []) = (n : Int) := by
  induction f with
  | zero => intro n h; omega
  | succ f ih =>
    intro n h
    simp only [Nat.toDigitsCore]
    split
    · rename_i h0
      simp only [seatValue, List.foldl, zero_mul, zero_add]
      rw [digitVal_digitChar]
      have : n % 10 = n := by omega
      rw [this]
    · rename_i h0
      rw [toDigitsCore_append]
      have hlt : n / 10 < f := by omega
      have := ih (n / 10) hlt
      simp only [seatValue, List.foldl_append, List.foldl] at this ⊢
      rw [this, digitVal_digitChar]
      omega

theorem seatValue_toDigits (n : Nat) : seatValue (Nat.toDigits 10 n) = (n : Int) :=
  seatValue_toDigitsCore _ _ (Nat.lt_succ_self n)

theorem itoa_ne_nil (n : Int) : itoa n ≠ [] := by
  cases n with
  | ofNat m => exact toDigits_ne_nil m
  | negSucc m => simp [itoa]

theorem comma_not_mem_itoa (n : Int) : ',' ∉ itoa n := by
  cases n with
  | ofNat m => intro h; exact absurd (toDigits_mem m _ h) (by decide)
  | negSucc m =>
    intro h
    simp only [itoa, List.mem_cons] at h
    rcases h with h | h
    · exact absurd h (by decide)
    · exact absurd (toDigits_mem _ _ h) (by decide)

theorem itoa_injective : Function.Injective itoa := by
  intro a b h
  cases a with
  | ofNat m =>
    cases b with
    | ofNat k =>
      have := congrArg seatValue h
      simp only [itoa, seatValue_toDigits] at this
      simpa using this
    | negSucc k =>
      exfalso
      simp only [itoa] at h
      have hm : '-' ∈ Nat.toDigits 10 m := by rw [h]; simp
      exact absurd (toDigits_mem m _ hm) (by decide)
  | negSucc m =>
    cases b with
    | ofNat k =>
      exfalso
      simp only [itoa] at h
      have hm : '-' ∈ Nat.toDigits 10 k := by rw [← h]; simp
      exact absurd (toDigits_mem k _ hm) (by decide)
    | negSucc k =>
      simp only [itoa, List.cons.injEq, true_and] at h
      have := congrArg seatValue h
      simp only [seatValue_toDigits] at this
      have : m = k := by omega
      rw [this]

/-! ### Tokens of a booked field -/

theorem strtokFrom_infix (s : CStr) : ∀ (cur tok : CStr),
    tok ∈ strtokFrom cur s → tok <:+: cur ++ s := by
  induction s with
  | nil =>
    intro cur tok h
    simp only [strtokFrom] at h
    split at h
    · simp at h
    · simp only [List.mem_singleton] at h
      subst h; simp
  | cons c rest ih =>
    intro cur tok h
    simp only [strtokFrom] at h
    split at h
    · split at h
      · have := ih [] tok h
        simp only [List.nil_append] at this
        exact this.trans ((List.suffix_cons c rest).isInfix.trans (List.suffix_append cur _).isInfix)
      · rcases List.mem_cons.1 h with h | h
        · subst h; exact (List.prefix_append _ _).isInfix
        · have := ih [] tok h
          simp only [List.nil_append] at this
          exact this.trans ((List.suffix_cons c rest).isInfix.trans (List.suffix_append cur _).isInfix)
    · have := ih (cur ++ [c]) tok h
      simpa using this

theorem strtokAll_infix (s tok : CStr) (h : tok ∈ strtokAll s) : tok <:+: s := by
  simpa using strtokFrom_infix s [] tok h

theorem strtokFrom_append_comma (a : CStr) : ∀ (cur b : CStr),
    strtokFrom cur (a ++ ',' :: b) = strtokFrom cur a ++ strtokFrom [] b := by
  induction a with
  | nil =>
    intro cur b
    simp only [List.nil_append, strtokFrom, if_true]
    split <;> simp
  | cons c a ih =>
    intro cur b
    simp only [List.cons_append, strtokFrom]
    split
    · split
      · exact ih [] b
      · simp [ih [] b]
    · exact ih _ b

theorem strtokFrom_commaFree (w : CStr) : ∀ cur : CStr, ',' ∉ w →
    strtokFrom cur w = if cur ++ w = [] then [] else [cur ++ w] := by
  induction w with
  | nil => intro cur _; simp [strtokFrom]
  | cons c w ih =>
    intro cur h
    simp only [List.mem_cons, not_or] at h
    have hc : c ≠ ',' := fun e => h.1 e.symm
    simp only [strtokFrom, if_neg hc]
    rw [ih _ h.2]
    simp

theorem strtokAll_itoa (n : Int) : strtokAll (itoa n) = [itoa n] := by
  unfold strtokAll
  rw [strtokFrom_commaFree _ _ (comma_not_mem_itoa n)]
  simp [itoa_ne_nil]

theorem strtokAll_append_comma_itoa (a : CStr) (n : Int) :
    strtokAll (a ++ ',' :: itoa n) = strtokAll a ++ [itoa n] := by
  unfold strtokAll
  rw [strtokFrom_append_comma]
  exact congrArg _ (strtokAll_itoa n)

theorem itoa_infix_bookedText (l : List Int) (n : Int) (h : n ∈ l) :
    itoa n <:+: bookedText l := by
  induction l with
  | nil => simp at h
  | cons a l ih =>
    cases l with
    | nil =>
      simp only [List.mem_singleton] at h
      subst h
      simp [bookedText, List.intercalate]
    | cons b l =>
      have hb : bookedText (a :: b :: l) = itoa a ++ ',' :: bookedText (b :: l) := by
        simp [bookedText, List.intercalate, List.intersperse]
      rw [hb]
      rcases List.mem_cons.1 h with h | h
      · subst h; exact (List.prefix_append _ _).isInfix
      · exact (ih h).trans ((List.suffix_cons _ _).isInfix.trans (List.suffix_append _ _).isInfix)

theorem bookedText_nil : bookedText [] = [] := rfl

theorem bookedText_concat (l : List Int) (n : Int) (h : l ≠ []) :
    bookedText (l ++ [n]) = bookedText l ++ ',' :: itoa n := by
  induction l with
  | nil => exact absurd rfl h
  | cons a l ih =>
    cases l with
    | nil => simp [bookedText, List.intercalate, List.intersperse]
    | cons b l =>
      have hb : ∀ m : List Int, bookedText (a :: b :: m) = itoa a ++ ',' :: bookedText (b :: m) := by
        intro m; simp [bookedText, List.intercalate, List.intersperse]
      have := ih (by simp)
      simp only [List.cons_append] at this ⊢
      rw [hb, hb, this]
      simp

theorem bookedText_eq_nil (l : List Int) : bookedText l = [] ↔ l = [] := by
  constructor
  · intro h
    cases l with
    | nil => rfl
    | cons a l =>
      exfalso
      have := itoa_infix_bookedText (a :: l) a (by simp)
      rw [h] at this
      exact itoa_ne_nil a (List.infix_nil.1 this)
  · intro h; subst h; rfl

/-! ### The loops of `buyTicket` -/

theorem selectSeats_ok (booked : CStr) (req : List Int) : ∀ (acc r : List Int),
    selectSeats booked acc req = .ok r →
      r = acc ++ req ∧ req.Nodup ∧ (∀ x ∈ req, x ∉ acc) ∧
        ∀ x ∈ req, strstr booked (itoa x) = false := by
  induction req with
  | nil => intro acc r h; simp only [selectSeats, Except.ok.injEq] at h; simp [h]
  | cons a req ih =>
    intro acc r h
    simp only [selectSeats] at h
    split at h
    · simp at h
    · rename_i ha
      split at h
      · simp at h
      · rename_i hb
        obtain ⟨h1, h2, h3, h4⟩ := ih _ _ h
        refine ⟨by simp [h1], ?_, ?_, ?_⟩
        · refine List.nodup_cons.2 ⟨fun hmem => ?_, h2⟩
          exact h3 a hmem (by simp)
        · intro x hx
          rcases List.mem_cons.1 hx with hx | hx
          · subst hx; exact ha
          · intro hacc; exact h3 x hx (by simp [hacc])
        · intro x hx
          rcases List.mem_cons.1 hx with hx | hx
          · subst hx; simpa using hb
          · exact h4 x hx

theorem selectSeats_of_clean (booked : CStr) (req : List Int) : ∀ acc : List Int,
    req.Nodup → (∀ x ∈ req, x ∉ acc) → (∀ x ∈ req, strstr booked (itoa x) = false) →
      selectSeats booked acc req = .ok (acc ++ req) := by
  induction req with
  | nil => intro acc _ _ _; simp [selectSeats]
  | cons a req ih =>
    intro acc hn hd hb
    have ha : a ∉ acc := hd a (by simp)
    have hba : strstr booked (itoa a) = false := hb a (by simp)
    simp only [selectSeats, if_neg ha, hba]
    rw [ih (acc ++ [a]) (List.nodup_cons.1 hn).2 ?_ (fun x hx => hb x (by simp [hx]))]
    · simp
    · intro x hx hmem
      rcases List.mem_append.1 hmem with h | h
      · exact hd x (by simp [hx]) h
      · simp only [List.mem_singleton] at h
        subst h
        exact (List.nodup_cons.1 hn).1 hx

theorem selectSeats_booked (booked : CStr) (req : List Int) : ∀ acc : List Int,
    req.Nodup → (∀ x ∈ req, x ∉ acc) → (∃ x ∈ req, strstr booked (itoa x) = true) →
      ∃ n ∈ req, selectSeats booked acc req = .error (.seatAlreadyBooked n) ∧
        strstr booked (itoa n) = true := by
  induction req with
  | nil => intro acc _ _ h; simp at h
  | cons a req ih =>
    intro acc hn hd hb
    have ha : a ∉ acc := hd a (by simp)
    simp only [selectSeats, if_neg ha]
    by_cases hba : strstr booked (itoa a) = true
    · exact ⟨a, by simp, by simp [hba], hba⟩
    · have hex : ∃ x ∈ req, strstr booked (itoa x) = true := by
        obtain ⟨x, hx, hxb⟩ := hb
        rcases List.mem_cons.1 hx with h | h
        · subst h; exact absurd hxb hba
        · exact ⟨x, h, hxb⟩
      have hdis : ∀ x ∈ req, x ∉ acc ++ [a] := by
        intro x hx hmem
        rcases List.mem_append.1 hmem with h | h
        · exact hd x (by simp [hx]) h
        · simp only [List.mem_singleton] at h
          subst h
          exact (List.nodup_cons.1 hn).1 hx
      obtain ⟨n, hn1, hn2, hn3⟩ := ih (acc ++ [a]) (List.nodup_cons.1 hn).2 hdis hex
      refine ⟨n, by simp [hn1], ?_, hn3⟩
      simp only [hba, Bool.false_eq_true, if_false]
      exact hn2

theorem selectSeats_repeat (booked : CStr) (x : Int) (post : List Int) (pre : List Int) :
    ∀ acc : List Int, (acc ++ pre).Nodup → x ∈ acc ++ pre →
      selectSeats booked acc (pre ++ x :: post) =
        match pre.find? (fun y => strstr booked (itoa y)) with
        | some y => .error (.seatAlreadyBooked y)
        | none => .error .duplicateSeat := by
  induction pre with
  | nil =>
    intro acc _ hx
    simp only [List.append_nil] at hx
    simp [selectSeats, hx]
  | cons p pre ih =>
    intro acc hn hx
    have hp : p ∉ acc := by
      intro hmem
      have := List.nodup_append.1 hn
      exact this.2.2 hmem (by simp)
    simp only [List.cons_append, selectSeats, if_neg hp, List.find?_cons]
    by_cases hb : strstr booked (itoa p) = true
    · simp [hb]
    · simp only [hb, Bool.false_eq_true, if_false]
      have hb' : strstr booked (itoa p) = false := by simpa using hb
      try simp only [hb']
      exact ih (acc ++ [p]) (by simpa using hn) (by simpa using hx)

theorem appendBooked_tokens (booked : CStr) (req : List Int) : ∀ (j : Nat) (upd : CStr),
    (∀ x ∈ req, strstr booked (itoa x) = false) →
    ((booked.length > 0 ∨ j > 0) ∨ upd = []) →
      strtokAll (appendBooked booked j req upd) = strtokAll upd ++ req.map itoa := by
  induction req with
  | nil => intro j upd _ _; simp [appendBooked]
  | cons a req ih =>
    intro j upd hb hinv
    have hba : strstr booked (itoa a) = false := hb a (by simp)
    simp only [appendBooked, hba, if_true]
    rw [ih (j + 1) _ (fun x hx => hb x (by simp [hx])) (Or.inl (Or.inr (Nat.succ_pos j)))]
    by_cases hc : booked.length > 0 ∨ j > 0
    · simp only [if_pos hc, List.append_assoc, List.singleton_append, List.map_cons]
      rw [strtokAll_append_comma_itoa]
      simp
    · have hu : upd = [] := hinv.resolve_left hc
      subst hu
      simp only [if_neg hc, List.nil_append, List.map_cons]
      rw [strtokAll_itoa]
      simp [strtokAll, strtokFrom]

theorem appendBooked_bookedText (booked : CStr) (req : List Int) :
    ∀ (j : Nat) (m : List Int),
    (∀ x ∈ req, strstr booked (itoa x) = false) →
    ((booked.length > 0 ∨ j > 0) ↔ m ≠ []) →
      appendBooked booked j req (bookedText m) = bookedText (m ++ req) := by
  induction req with
  | nil => intro j m _ _; simp [appendBooked]
  | cons a req ih =>
    intro j m hb hinv
    have hba : strstr booked (itoa a) = false := hb a (by simp)
    simp only [appendBooked, hba, if_true]
    have hstep : (if booked.length > 0 ∨ j > 0 then bookedText m ++ [','] else bookedText m)
        ++ itoa a = bookedText (m ++ [a]) := by
      by_cases hc : booked.length > 0 ∨ j > 0
      · rw [if_pos hc, bookedText_concat m a (hinv.1 hc)]; simp
      · have hm : m = [] := by
          by_contra hne; exact hc (hinv.2 hne)
        subst hm
        rw [if_neg hc]
        simp [bookedText, List.intercalate]
    rw [hstep, ih (j + 1) (m ++ [a]) (fun x hx => hb x (by simp [hx])) (by simp)]
    simp

theorem issueTickets_spec (rand : Nat → Nat) (userId showId : Int) (pm pa txn : CStr)
    (seats : List Int) : ∀ (numTickets k : Nat),
    (issueTickets rand userId showId pm pa txn numTickets k seats).map Ticket.seatNumber = seats ∧
    (issueTickets rand userId showId pm pa txn numTickets k seats).map Ticket.id
      = (List.range' numTickets seats.length).map Int.ofNat ∧
    ∀ t ∈ issueTickets rand userId showId pm pa txn numTickets k seats,
      t.status = 1 ∧ t.userId = userId ∧ t.showId = showId ∧ t.transactionNumber = txn ∧
        t.paymentMethod = pm ∧ t.paymentAccount = pa := by
  induction seats with
  | nil => intro n k; simp [issueTickets]
  | cons a seats ih =>
    intro n k
    obtain ⟨h1, h2, h3⟩ := ih (n + 1) (k + 1)
    refine ⟨by simp [issueTickets, h1], ?_, ?_⟩
    · simp only [issueTickets, List.map_cons, h2, List.length_cons, List.range'_succ]
      rfl
    · intro t ht
      simp only [issueTickets, List.mem_cons] at ht
      rcases ht with ht | ht
      · subst ht; simp
      · exact h3 t ht

theorem buyLoop_none (env : Env) (tickets : List Ticket) (userId showId : Int)
    (inp : PurchaseInput) (shows : List Show)
    (h : shows.find? (fun x => decide (x.id = showId)) = none) :
    buyLoop env tickets userId showId inp shows = .ok (.showNotFound, tickets, shows) := by
  induction shows with
  | nil => rfl
  | cons s rest ih =>
    simp only [List.find?_cons] at h
    split at h
    · simp at h
    · rename_i hs
      have hs' : ¬ s.id = showId := by simpa using hs
      simp only [buyLoop, if_neg hs', ih h]

theorem buyLoop_some (env : Env) (tickets : List Ticket) (userId showId : Int)
    (inp : PurchaseInput) (shows : List Show) (s : Show)
    (h : shows.find? (fun x => decide (x.id = showId)) = some s) :
    ∃ pre post, shows = pre ++ s :: post ∧ (∀ x ∈ pre, x.id ≠ showId) ∧ s.id = showId ∧
      buyLoop env tickets userId showId inp shows =
        match purchaseOnShow env tickets userId showId inp s with
        | .error o => .error o
        | .ok (tickets1, s1) => .ok (.purchased, tickets1, pre ++ s1 :: post) := by
  induction shows with
  | nil => simp at h
  | cons a rest ih =>
    simp only [List.find?_cons] at h
    split at h
    · rename_i ha
      have ha' : a.id = showId := by simpa using ha
      simp only [Option.some.injEq] at h
      subst h
      refine ⟨[], rest, rfl, by simp, ha', ?_⟩
      simp only [buyLoop, if_pos ha', List.nil_append]
    · rename_i ha
      have ha' : ¬ a.id = showId := by simpa using ha
      obtain ⟨pre, post, h1, h2, h3, h4⟩ := ih h
      refine ⟨a :: pre, post, by simp [h1], ?_, h3, ?_⟩
      · intro x hx
        rcases List.mem_cons.1 hx with hx | hx
        · subst hx; exact ha'
        · exact h2 x hx
      · simp only [buyLoop, if_neg ha', h4]
        rcases purchaseOnShow env tickets userId showId inp s with o | ⟨t1, s1⟩ <;> rfl

/-! ### Purchases -/

theorem buyTicket_of_find_none (env : Env) (st : Ledger) (userId showId : Int)
    (inp : PurchaseInput)
    (h : st.shows.find? (fun x => decide (x.id = showId)) = none) :
    buyTicket env st userId showId inp = (.showNotFound, st) := by
  simp only [buyTicket, buyLoop_none env st.tickets userId showId inp st.shows h]

theorem buyTicket_of_find_some (env : Env) (st : Ledger) (userId showId : Int)
    (inp : PurchaseInput) (s : Show)
    (h : st.shows.find? (fun x => decide (x.id = showId)) = some s) :
    ∃ pre post, st.shows = pre ++ s :: post ∧ (∀ x ∈ pre, x.id ≠ showId) ∧ s.id = showId ∧
      buyTicket env st userId showId inp =
        match purchaseOnShow env st.tickets userId showId inp s with
        | .error o => (o, st)
        | .ok (tickets1, s1) =>
          (.purchased, { tickets := tickets1, shows := pre ++ s1 :: post }) := by
  obtain ⟨pre, post, h1, h2, h3, h4⟩ := buyLoop_some env st.tickets userId showId inp st.shows s h
  refine ⟨pre, post, h1, h2, h3, ?_⟩
  simp only [buyTicket, h4]
  rcases purchaseOnShow env st.tickets userId showId inp s with o | ⟨t1, s1⟩ <;> rfl

theorem purchaseOnShow_ok (env : Env) (tickets : List Ticket) (userId showId : Int)
    (inp : PurchaseInput) (s : Show) (t1 : List Ticket) (s1 : Show)
    (h : purchaseOnShow env tickets userId showId inp s = .ok (t1, s1)) :
    inp.seats.Nodup ∧ (∀ x ∈ inp.seats, strstr s.booked (itoa x) = false) ∧
    ∃ pm, paymentMethod inp.payment_m = some pm ∧
      t1 = tickets ++ issueTickets env.rand userId showId pm inp.payment_account
            (generateTransactionNumber env.rand (9 * inp.seats.length)
              env.hour env.minute env.second 10) tickets.length 0 inp.seats ∧
      s1 = { s with booked := appendBooked s.booked 0 inp.seats s.booked } := by
  unfold purchaseOnShow at h
  split at h
  · simp at h
  · rename_i r hr
    obtain ⟨hr1, hr2, _, hr4⟩ := selectSeats_ok _ _ _ _ hr
    simp only [List.nil_append] at hr1
    subst hr1
    split at h
    · simp at h
    · rename_i pm hpm
      simp only [Except.ok.injEq, Prod.mk.injEq] at h
      exact ⟨hr2, hr4, pm, hpm, h.1.symm, h.2.symm⟩

theorem purchaseOnShow_error (env : Env) (tickets : List Ticket) (userId showId : Int)
    (inp : PurchaseInput) (s : Show) (o : Outcome)
    (h : purchaseOnShow env tickets userId showId inp s = .error o) :
    o ≠ .purchased ∧ o ≠ .showNotFound := by
  unfold purchaseOnShow at h
  split at h
  · rename_i o1 ho1
    simp only [Except.error.injEq] at h
    subst h
    by_cases hclean : inp.seats.Nodup ∧ ∀ x ∈ inp.seats, strstr s.booked (itoa x) = false
    · rw [selectSeats_of_clean _ _ [] hclean.1 (by simp) hclean.2] at ho1
      simp at ho1
    · by_cases hn : inp.seats.Nodup
      · have hex : ∃ x ∈ inp.seats, strstr s.booked (itoa x) = true := by
          by_contra hcon
          apply hclean
          refine ⟨hn, fun x hx => ?_⟩
          by_contra hx2
          exact hcon ⟨x, hx, by simpa using hx2⟩
        obtain ⟨n, _, hn2, _⟩ := selectSeats_booked s.booked inp.seats [] hn (by simp) hex
        rw [hn2] at ho1
        simp only [Except.error.injEq] at ho1
        subst ho1
        simp
      · -- a repeated seat
        have hdup : ∃ pre x post, inp.seats = pre ++ x :: post ∧ pre.Nodup ∧ x ∈ pre := by
          clear ho1 hclean
          generalize inp.seats = l at hn
          induction l using List.reverseRecOn with
          | nil => simp at hn
          | append_singleton l a ih =>
            by_cases hl : l.Nodup
            · have ha : a ∈ l := by
                by_contra ha
                apply hn
                rw [List.nodup_append]
                exact ⟨hl, by simp, by
                  intro b hb hb2
                  simp only [List.mem_singleton] at hb2
                  subst hb2; exact ha hb⟩
              exact ⟨l, a, [], rfl, hl, ha⟩
            · obtain ⟨pre, x, post, h1, h2, h3⟩ := ih hl
              exact ⟨pre, x, post ++ [a], by simp [h1], h2, h3⟩
        obtain ⟨pre, x, post, h1, h2, h3⟩ := hdup
        rw [h1, selectSeats_repeat s.booked x post pre [] (by simpa using h2) (by simpa using h3)]
          at ho1
        split at ho1 <;>
        · simp only [Except.error.injEq] at ho1
          subst ho1
          simp
  · split at h
    · simp only [Except.error.injEq] at h
      subst h; simp
    · simp at h

/-- C5: whenever `buyTicket` ends with a rejection (a duplicate seat in the request, a
seat reported as already booked, or an invalid payment choice), the persisted ticket and
show ledgers are exactly the ledgers before the call. -/
theorem buyTicket_rejection_leaves_ledgers (env : Env) (st : Ledger) (userId showId : Int)
    (inp : PurchaseInput)
    (h : (buyTicket env st userId showId inp).1 = Outcome.duplicateSeat ∨
         (∃ n, (buyTicket env st userId showId inp).1 = Outcome.seatAlreadyBooked n) ∨
         (buyTicket env st userId showId inp).1 = Outcome.invalidPayment) :
    (buyTicket env st userId showId inp).2 = st := by
  cases hf : st.shows.find? (fun x => decide (x.id = showId)) with
  | none => rw [buyTicket_of_find_none env st userId showId inp hf]
  | some s =>
    obtain ⟨pre, post, _, _, _, h4⟩ := buyTicket_of_find_some env st userId showId inp s hf
    rw [h4] at h ⊢
    rcases hp : purchaseOnShow env st.tickets userId showId inp s with o | ⟨t1, s1⟩
    · rfl
    · rw [hp] at h
      simp at h

/-- C5 at a concrete input: seat 1 of the request [1, 5] is acceptable, seat 5 is booked;
the purchase is rejected and nothing is written. -/
theorem buyTicket_rejection_leaves_ledgers_witness :
    (buyTicket demoEnv { tickets := [], shows := [demoShow 1 10 ['5']] } 9 1 (demoInput [1, 5])).1
        = Outcome.seatAlreadyBooked 5 ∧
    (buyTicket demoEnv { tickets := [], shows := [demoShow 1 10 ['5']] } 9 1 (demoInput [1, 5])).2
        = { tickets := [], shows := [demoShow 1 10 ['5']] } :=
  ⟨by decide, buyTicket_rejection_leaves_ledgers demoEnv _ 9 1 (demoInput [1, 5])
    (Or.inr (Or.inl ⟨5, by decide⟩))⟩

/-- C4 (amended): a request in which the seat `x` repeats one of the pairwise distinct seats
`pre` read before it is always rejected with the ledgers unchanged; the seats are checked
one by one in request order, so the error is the seat-already-booked error of the first
seat of `pre` that `strstr` finds in the booked field, and the duplicate-seat error exactly
when there is no such seat. -/
theorem buyTicket_repeated_seat (env : Env) (st : Ledger) (userId showId : Int)
    (inp : PurchaseInput) (s : Show) (pre : List Int) (x : Int) (post : List Int)
    (hfind : st.shows.find? (fun y => decide (y.id = showId)) = some s)
    (hsplit : inp.seats = pre ++ x :: post) (hpre : pre.Nodup) (hx : x ∈ pre) :
    buyTicket env st userId showId inp =
      ((match pre.find? (fun y => strstr s.booked (itoa y)) with
        | some y => Outcome.seatAlreadyBooked y
        | none => Outcome.duplicateSeat), st) ∧
    ((buyTicket env st userId showId inp).1 = Outcome.duplicateSeat ↔
      ∀ y ∈ pre, strstr s.booked (itoa y) = false) := by
  obtain ⟨p1, p2, _, _, _, h4⟩ := buyTicket_of_find_some env st userId showId inp s hfind
  have hsel := selectSeats_repeat s.booked x post pre [] (by simpa using hpre) (by simpa using hx)
  rw [← hsplit] at hsel
  have hp : purchaseOnShow env st.tickets userId showId inp s
      = .error (match pre.find? (fun y => strstr s.booked (itoa y)) with
        | some y => Outcome.seatAlreadyBooked y
        | none => Outcome.duplicateSeat) := by
    simp only [purchaseOnShow, hsel]
    cases pre.find? (fun y => strstr s.booked (itoa y)) <;> rfl
  have heq : buyTicket env st userId showId inp =
      ((match pre.find? (fun y => strstr s.booked (itoa y)) with
        | some y => Outcome.seatAlreadyBooked y
        | none => Outcome.duplicateSeat), st) := by
    rw [h4, hp]
  refine ⟨heq, ?_⟩
  rw [heq]
  cases hfd : pre.find? (fun y => strstr s.booked (itoa y)) with
  | none =>
    simp only [true_iff]
    intro y hy
    have := List.find?_eq_none.1 hfd y hy
    simpa using this
  | some y =>
    constructor
    · intro h; cases h
    · intro hall
      have hy := List.mem_of_find?_eq_some hfd
      have hy2 := List.find?_some hfd
      rw [hall y hy] at hy2
      exact absurd hy2 (by decide)

theorem buyTicket_purchased_inv (env : Env) (st : Ledger) (userId showId : Int)
    (inp : PurchaseInput)
    (h : (buyTicket env st userId showId inp).1 = Outcome.purchased) :
    ∃ (pre post : List Show) (s : Show) (pm : CStr),
      st.shows.find? (fun x => decide (x.id = showId)) = some s ∧
      st.shows = pre ++ s :: post ∧ (∀ x ∈ pre, x.id ≠ showId) ∧ s.id = showId ∧
      inp.seats.Nodup ∧ (∀ x ∈ inp.seats, strstr s.booked (itoa x) = false) ∧
      paymentMethod inp.payment_m = some pm ∧
      buyTicket env st userId showId inp =
        (Outcome.purchased,
          { tickets := st.tickets ++ issueTickets env.rand userId showId pm inp.payment_account
              (generateTransactionNumber env.rand (9 * inp.seats.length)
                env.hour env.minute env.second 10) st.tickets.length 0 inp.seats,
            shows := pre ++
              { s with booked := appendBooked s.booked 0 inp.seats s.booked } :: post }) := by
  cases hf : st.shows.find? (fun x => decide (x.id = showId)) with
  | none =>
    rw [buyTicket_of_find_none env st userId showId inp hf] at h
    simp at h
  | some s =>
    obtain ⟨pre, post, h1, h2, h3, h4⟩ := buyTicket_of_find_some env st userId showId inp s hf
    rcases hp : purchaseOnShow env st.tickets userId showId inp s with o | ⟨t1, s1⟩
    · rw [h4, hp] at h
      exact absurd h (purchaseOnShow_error env st.tickets userId showId inp s o hp).1
    · obtain ⟨q1, q2, pm, q3, q4, q5⟩ :=
        purchaseOnShow_ok env st.tickets userId showId inp s t1 s1 hp
      refine ⟨pre, post, s, pm, rfl, h1, h2, h3, q1, q2, q3, ?_⟩
      rw [h4, hp, q4, q5]

/-- C4 (amended) at two concrete requests on a show with booked list {5}: [3, 3] fails
with the duplicate-seat error, [5, 3, 3] with the seat-already-booked error for seat 5. -/
theorem buyTicket_repeated_seat_witness :
    (buyTicket demoEnv { tickets := [], shows := [demoShow 1 10 ['5']] } 9 1 (demoInput [3, 3])
      = (Outcome.duplicateSeat, { tickets := [], shows := [demoShow 1 10 ['5']] })) ∧
    (buyTicket demoEnv { tickets := [], shows := [demoShow 1 10 ['5']] } 9 1
        (demoInput [5, 3, 3])
      = (Outcome.seatAlreadyBooked 5, { tickets := [], shows := [demoShow 1 10 ['5']] })) :=
  ⟨(buyTicket_repeated_seat demoEnv { tickets := [], shows := [demoShow 1 10 ['5']] } 9 1
      (demoInput [3, 3]) (demoShow 1 10 ['5']) [3] 3 [] (by decide) (by decide) (by decide)
      (by decide)).1,
   (buyTicket_repeated_seat demoEnv { tickets := [], shows := [demoShow 1 10 ['5']] } 9 1
      (demoInput [5, 3, 3]) (demoShow 1 10 ['5']) [5, 3] 3 [] (by decide) (by decide)
      (by decide) (by decide)).1⟩

/-- On the loaded arrays: an accepted purchase has pairwise distinct seats; the ticket
ledger becomes the old one followed by one ticket per requested seat, in request order, each
with status 1, the given user and show and one common transaction number; the first show
with id `showId` gets the requested seats appended to its booked list and every other show
record is unchanged. -/
theorem buyTicket_purchase_effect (env : Env) (st : Ledger) (userId showId : Int)
    (inp : PurchaseInput)
    (h : (buyTicket env st userId showId inp).1 = Outcome.purchased) :
    inp.seats.Nodup ∧
    ∃ (pre post : List Show) (s : Show) (b : CStr) (newTickets : List Ticket) (txn : CStr),
      st.shows = pre ++ s :: post ∧ (∀ x ∈ pre, x.id ≠ showId) ∧ s.id = showId ∧
      (buyTicket env st userId showId inp).2.shows = pre ++ { s with booked := b } :: post ∧
      strtokAll b = strtokAll s.booked ++ inp.seats.map itoa ∧
      (∀ l : List Int, s.booked = bookedText l → b = bookedText (l ++ inp.seats)) ∧
      (buyTicket env st userId showId inp).2.tickets = st.tickets ++ newTickets ∧
      newTickets.map Ticket.seatNumber = inp.seats ∧
      ∀ t ∈ newTickets, t.status = 1 ∧ t.userId = userId ∧ t.showId = showId ∧
        t.transactionNumber = txn := by
  obtain ⟨pre, post, s, pm, _, h1, h2, h3, h4, h5, _, h7⟩ :=
    buyTicket_purchased_inv env st userId showId inp h
  refine ⟨h4, pre, post, s, appendBooked s.booked 0 inp.seats s.booked, _,
    generateTransactionNumber env.rand (9 * inp.seats.length) env.hour env.minute env.second 10,
    h1, h2, h3, by rw [h7], ?_, ?_, by rw [h7], ?_, ?_⟩
  · refine appendBooked_tokens s.booked inp.seats 0 s.booked h5 ?_
    cases hb : s.booked with
    | nil => exact Or.inr rfl
    | cons c cs => exact Or.inl (Or.inl (by simp))
  · intro l hl
    have := appendBooked_bookedText s.booked inp.seats 0 l h5 (by
      rw [hl]
      constructor
      · intro hc hnil
        subst hnil
        simp [bookedText_nil] at hc
      · intro hne
        left
        exact List.length_pos.2 (fun e => hne ((bookedText_eq_nil l).1 e)))
    rw [← hl] at this
    exact this
  · exact (issueTickets_spec _ _ _ _ _ _ _ _ _).1
  · intro t ht
    obtain ⟨a, b, c, d, _, _⟩ := (issueTickets_spec _ _ _ _ _ _ _ _ _).2.2 t ht
    exact ⟨a, b, c, d⟩

/-- The purchase on the loaded arrays at a concrete input: show 1 with 5 seats and nothing booked, user 9 buys
seats 1 and 2. -/
theorem buyTicket_purchase_effect_witness :
    (buyTicket demoEnv { tickets := [], shows := [demoShow 1 5 []] } 9 1 (demoInput [1, 2])).1
      = Outcome.purchased ∧
    (buyTicket demoEnv { tickets := [], shows := [demoShow 1 5 []] } 9 1
      (demoInput [1, 2])).2.shows = [demoShow 1 5 ['1', ',', '2']] ∧
    ((buyTicket demoEnv { tickets := [], shows := [demoShow 1 5 []] } 9 1
      (demoInput [1, 2])).2.tickets.map fun t => (t.seatNumber, t.status)) = [(1, 1), (2, 1)] ∧
    (demoInput [1, 2]).seats.Nodup :=
  ⟨by decide, by decide, by decide,
    (buyTicket_purchase_effect demoEnv { tickets := [], shows := [demoShow 1 5 []] } 9 1
      (demoInput [1, 2]) (by decide)).1⟩

theorem tokens_count_le (toks : List CStr) (seats : Int) (h0 : 0 ≤ seats)
    (hrange : ∀ tok ∈ toks, ∃ n : Int, 1 ≤ n ∧ n ≤ seats ∧ tok = itoa n) :
    ((toks.dedup.length : Nat) : Int) ≤ seats := by
  have hsub : toks.toFinset ⊆ (Finset.Icc (1 : Int) seats).image itoa := by
    intro tok htok
    obtain ⟨n, hn1, hn2, hn3⟩ := hrange tok (List.mem_toFinset.1 htok)
    exact Finset.mem_image.2 ⟨n, Finset.mem_Icc.2 ⟨hn1, hn2⟩, hn3.symm⟩
  have h1 := Finset.card_le_card hsub
  have h2 : ((Finset.Icc (1 : Int) seats).image itoa).card ≤ (Finset.Icc (1 : Int) seats).card :=
    Finset.card_image_le
  rw [List.card_toFinset] at h1
  rw [Int.card_Icc] at h2
  have h3 : toks.dedup.length ≤ (seats + 1 - 1).toNat := le_trans h1 h2
  have h4 : (seats + 1 - 1).toNat = seats.toNat := by congr 1; ring
  rw [h4] at h3
  have := Int.toNat_of_nonneg h0
  omega

/-- On the loaded arrays: if the booked list of the selected show has all members in
`[1, seats]` and at most `seats` distinct members, and an accepted request has all its seat
numbers in `[1, seats]`, then the booked list after the purchase (the old list followed by
the request) again has all members in `[1, seats]` and at most `seats` distinct members; a
duplicate-free list stays duplicate-free and its length stays at most `seats`. -/
theorem buyTicket_keeps_seat_bounds (env : Env) (st : Ledger) (userId showId : Int)
    (inp : PurchaseInput) (s : Show)
    (hfind : st.shows.find? (fun x => decide (x.id = showId)) = some s)
    (hrange : ∀ tok ∈ strtokAll s.booked, ∃ n : Int, 1 ≤ n ∧ n ≤ s.seats ∧ tok = itoa n)
    (hcount : (((strtokAll s.booked).dedup.length : Nat) : Int) ≤ s.seats)
    (hreq : ∀ n ∈ inp.seats, 1 ≤ n ∧ n ≤ s.seats)
    (hacc : (buyTicket env st userId showId inp).1 = Outcome.purchased) :
    ∃ (pre post : List Show) (b : CStr),
      st.shows = pre ++ s :: post ∧ (∀ x ∈ pre, x.id ≠ showId) ∧
      (buyTicket env st userId showId inp).2.shows = pre ++ { s with booked := b } :: post ∧
      strtokAll b = strtokAll s.booked ++ inp.seats.map itoa ∧
      (∀ tok ∈ strtokAll b, ∃ n : Int, 1 ≤ n ∧ n ≤ s.seats ∧ tok = itoa n) ∧
      (((strtokAll b).dedup.length : Nat) : Int) ≤ s.seats ∧
      ((strtokAll s.booked).Nodup →
        (strtokAll b).Nodup ∧ ((countBookedSeats b : Nat) : Int) ≤ s.seats) := by
  obtain ⟨pre, post, s', pm, h0, h1, h2, h3, h4, h5, _, h7⟩ :=
    buyTicket_purchased_inv env st userId showId inp hacc
  rw [hfind] at h0
  simp only [Option.some.injEq] at h0
  subst h0
  have htok : strtokAll (appendBooked s.booked 0 inp.seats s.booked)
      = strtokAll s.booked ++ inp.seats.map itoa := by
    refine appendBooked_tokens s.booked inp.seats 0 s.booked h5 ?_
    cases hb : s.booked with
    | nil => exact Or.inr rfl
    | cons c cs => exact Or.inl (Or.inl (by simp))
  have hr : ∀ tok ∈ strtokAll (appendBooked s.booked 0 inp.seats s.booked),
      ∃ n : Int, 1 ≤ n ∧ n ≤ s.seats ∧ tok = itoa n := by
    intro tok htk
    rw [htok] at htk
    rcases List.mem_append.1 htk with htk | htk
    · exact hrange tok htk
    · obtain ⟨n, hn, rfl⟩ := List.mem_map.1 htk
      exact ⟨n, (hreq n hn).1, (hreq n hn).2, rfl⟩
  have hs0 : 0 ≤ s.seats := le_trans (Int.ofNat_nonneg _) hcount
  have hc := tokens_count_le _ s.seats hs0 hr
  refine ⟨pre, post, _, h1, h2, by rw [h7], htok, hr, hc, ?_⟩
  intro hnd
  have hnd' : (strtokAll (appendBooked s.booked 0 inp.seats s.booked)).Nodup := by
    rw [htok, List.nodup_append]
    refine ⟨hnd, (List.nodup_map_iff itoa_injective).2 h4, ?_⟩
    intro tok htk htk2
    obtain ⟨n, hn, rfl⟩ := List.mem_map.1 htk2
    have hinf := strtokAll_infix _ _ htk
    have := h5 n hn
    rw [strstr_false_iff] at this
    exact this hinf
  refine ⟨hnd', ?_⟩
  unfold countBookedSeats
  rw [← List.dedup_eq_self.2 hnd']
  exact hc

/-- The seat bounds on the loaded arrays at a concrete input: seats 1 and 5 bought on a
5-seat show with seat 2 booked. -/
theorem buyTicket_keeps_seat_bounds_witness :
    ∃ (pre post : List Show) (b : CStr),
      ({ tickets := [], shows := [demoShow 1 5 ['2']] } : Ledger).shows
        = pre ++ demoShow 1 5 ['2'] :: post ∧ (∀ x ∈ pre, x.id ≠ 1) ∧
      (buyTicket demoEnv { tickets := [], shows := [demoShow 1 5 ['2']] } 9 1
        (demoInput [1, 5])).2.shows = pre ++ { demoShow 1 5 ['2'] with booked := b } :: post ∧
      strtokAll b = strtokAll (demoShow 1 5 ['2']).booked ++ (demoInput [1, 5]).seats.map itoa ∧
      (∀ tok ∈ strtokAll b, ∃ n : Int, 1 ≤ n ∧ n ≤ (demoShow 1 5 ['2']).seats ∧ tok = itoa n) ∧
      (((strtokAll b).dedup.length : Nat) : Int) ≤ (demoShow 1 5 ['2']).seats ∧
      ((strtokAll (demoShow 1 5 ['2']).booked).Nodup →
        (strtokAll b).Nodup ∧ ((countBookedSeats b : Nat) : Int) ≤ (demoShow 1 5 ['2']).seats) :=
  buyTicket_keeps_seat_bounds demoEnv { tickets := [], shows := [demoShow 1 5 ['2']] } 9 1
    (demoInput [1, 5]) (demoShow 1 5 ['2']) (by decide)
    (by
      intro tok htok
      have : tok = itoa 2 := by
        have h2 : strtokAll (demoShow 1 5 ['2']).booked = [itoa 2] := by decide
        rw [h2] at htok
        simpa using htok
      exact ⟨2, by decide, by decide, this⟩)
    (by decide)
    (by
      intro n hn
      have : n = 1 ∨ n = 5 := by simpa [demoInput] using hn
      rcases this with rfl | rfl <;> decide)
    (by decide)

/-- On the loaded arrays: on a show with 10 seats and nothing booked the request [11] is
accepted and seat 11 is written into the booked field. -/
theorem buyTicket_books_seat_out_of_range :
    (demoShow 1 10 []).seats = 10 ∧
    (buyTicket demoEnv { tickets := [], shows := [demoShow 1 10 []] } 9 1 (demoInput [11])).1
      = Outcome.purchased ∧
    (buyTicket demoEnv { tickets := [], shows := [demoShow 1 10 []] } 9 1
      (demoInput [11])).2.shows = [demoShow 1 10 ['1', '1']] ∧
    seatBooked ['1', '1'] 11 := by
  decide

/-- C4, counterexample: on a show whose booked list is {3} the request [3, 3] fails with
the seat-already-booked error for seat 3, not with the duplicate-seat error. -/
theorem buyTicket_repeat_of_booked_seat :
    (buyTicket demoEnv { tickets := [], shows := [demoShow 1 10 ['3']] } 9 1 (demoInput [3, 3]))
      = (Outcome.seatAlreadyBooked 3, { tickets := [], shows := [demoShow 1 10 ['3']] }) ∧
    ¬ (demoInput [3, 3]).seats.Nodup := by
  decide

/-- C1: starting from two shows (ids 1 and 2) and no tickets, buying seat 3 of show 2,
buying seat 3 of show 1, cancelling the second ticket and buying seat 3 of show 2 again
leaves two Active tickets for seat 3 of show 2; the ledger was consistent before the
cancellation. -/
theorem double_booking_after_cancel :
    Consistent twoShows ∧
    Consistent (runOps twoShows (doubleBookingOps.take 2)) ∧
    activeSeats (runOps twoShows doubleBookingOps).tickets = [(2, 3), (2, 3)] ∧
    ¬ (activeSeats (runOps twoShows doubleBookingOps).tickets).Nodup := by
  decide

/-- C7: with the single show of id 1 and booked list {1, 2}, cancelling the ticket for
seat 1 sets its status to 0 but leaves the booked field "1,2" as it was, although
`updateBookedField` applied to that field would leave "2". -/
theorem cancel_keeps_seat_of_show_one :
    ((updateTicketStatus
        { tickets := issueTickets demoEnv.rand 9 1 ['b', 'K', 'a', 's', 'h'] ['0', '1', '7']
            ['A', 'B', 'C', '0', '9', '0', '5', '3', '0'] 0 0 [1, 2],
          shows := [demoShow 1 5 ['1', ',', '2']] } 0 0).2.tickets.map
      fun t => (t.id, t.showId, t.seatNumber, t.status)) = [(0, 1, 1, 0), (1, 1, 2, 1)] ∧
    (updateTicketStatus
        { tickets := issueTickets demoEnv.rand 9 1 ['b', 'K', 'a', 's', 'h'] ['0', '1', '7']
            ['A', 'B', 'C', '0', '9', '0', '5', '3', '0'] 0 0 [1, 2],
          shows := [demoShow 1 5 ['1', ',', '2']] } 0 0).2.shows
      = [demoShow 1 5 ['1', ',', '2']] ∧
    updateBookedField ['1', ',', '2'] 1 = ['2'] := by
  decide

/-- C10: on a 12-seat show whose booked list is {12}, seat 1 is not in the booked list, yet
the `strstr` test reports it booked: seats 1 and 2 are missing from the available-seats
listing and a request for seat 1 is rejected as already booked. -/
theorem strstr_reports_free_seat_booked :
    bookedText [12] = ['1', '2'] ∧
    ¬ seatBooked ['1', '2'] 1 ∧
    strstr ['1', '2'] (itoa 1) = true ∧
    availableSeats (demoShow 1 12 ['1', '2']) = [3, 4, 5, 6, 7, 8, 9, 10, 11] ∧
    buyTicket demoEnv { tickets := [], shows := [demoShow 1 12 ['1', '2']] } 9 1 (demoInput [1])
      = (Outcome.seatAlreadyBooked 1, { tickets := [], shows := [demoShow 1 12 ['1', '2']] }) := by
  decide

/-! ### Cancellations -/

theorem cancelLoop_absent (ticketId newStatus : Int) (tickets : List Ticket) :
    ∀ shows : List Show, (∀ t ∈ tickets, t.id ≠ ticketId) →
      cancelLoop ticketId newStatus tickets shows = (false, tickets, shows) := by
  induction tickets with
  | nil => intro shows _; rfl
  | cons a rest ih =>
    intro shows h
    have ha : ¬ a.id = ticketId := h a (by simp)
    simp only [cancelLoop, if_neg ha, ih shows (fun t ht => h t (by simp [ht]))]

theorem cancelLoop_cancelled (ticketId newStatus : Int) (tickets : List Ticket) :
    ∀ (shows : List Show) (t : Ticket), (tickets.map Ticket.id).Nodup → t ∈ tickets →
      t.id = ticketId → t.status = 0 →
      cancelLoop ticketId newStatus tickets shows = (true, tickets, shows) := by
  induction tickets with
  | nil => intro shows t _ ht; simp at ht
  | cons a rest ih =>
    intro shows t hn ht hid hst
    simp only [List.map_cons, List.nodup_cons] at hn
    by_cases ha : a.id = ticketId
    · have hta : t = a := by
        rcases List.mem_cons.1 ht with h | h
        · exact h
        · exfalso
          apply hn.1
          rw [ha, ← hid]
          exact List.mem_map_of_mem _ h
      subst hta
      simp only [cancelLoop, if_pos ha, if_pos hst]
    · have htr : t ∈ rest := by
        rcases List.mem_cons.1 ht with h | h
        · subst h; exact absurd hid ha
        · exact h
      simp only [cancelLoop, if_neg ha, ih shows t hn.2 htr hid hst]

theorem cancelLoop_frame (ticketId newStatus : Int) (tickets : List Ticket) :
    ∀ shows : List Show,
      List.Forall₂
        (fun a b => b = a ∨ (a.id = ticketId ∧ a.status ≠ 0 ∧ b = { a with status := newStatus }))
        tickets (cancelLoop ticketId newStatus tickets shows).2.1 := by
  induction tickets with
  | nil => intro shows; simp [cancelLoop]
  | cons a rest ih =>
    intro shows
    simp only [cancelLoop]
    split
    · rename_i ha
      split
      · exact List.forall₂_same.2 (fun x _ => Or.inl rfl)
      · rename_i hs
        exact List.Forall₂.cons (Or.inr ⟨ha, hs, rfl⟩) (ih _)
    · exact List.Forall₂.cons (Or.inl rfl) (ih _)

theorem cancelLoop_zero_after (ticketId : Int) (tickets : List Ticket) :
    ∀ shows : List Show, (tickets.map Ticket.id).Nodup →
      ((cancelLoop ticketId 0 tickets shows).2.1.map Ticket.id = tickets.map Ticket.id) ∧
      ∀ t ∈ (cancelLoop ticketId 0 tickets shows).2.1, t.id = ticketId → t.status = 0 := by
  induction tickets with
  | nil => intro shows _; simp [cancelLoop]
  | cons a rest ih =>
    intro shows hn
    simp only [List.map_cons, List.nodup_cons] at hn
    simp only [cancelLoop]
    split
    · rename_i ha
      have hrest : ∀ t ∈ rest, t.id ≠ ticketId := by
        intro t ht hid
        apply hn.1
        rw [ha, ← hid]
        exact List.mem_map_of_mem _ ht
      split
      · rename_i hs
        refine ⟨rfl, ?_⟩
        intro t ht hid
        rcases List.mem_cons.1 ht with h | h
        · subst h; exact hs
        · exact absurd hid (hrest t h)
      · rw [cancelLoop_absent ticketId 0 rest _ hrest]
        refine ⟨rfl, ?_⟩
        intro t ht hid
        rcases List.mem_cons.1 ht with h | h
        · subst h; rfl
        · exact absurd hid (hrest t h)
    · rename_i ha
      obtain ⟨h1, h2⟩ := ih shows hn.2
      refine ⟨by simp [h1], ?_⟩
      intro t ht hid
      rcases List.mem_cons.1 ht with h | h
      · subst h; exact absurd hid ha
      · exact h2 t h hid

theorem updateTicketStatus_of_small (st : Ledger) (ticketId newStatus : Int)
    (hlen : st.tickets.length ≤ MAX_TICKET) :
    updateTicketStatus st ticketId newStatus =
      ((cancelLoop ticketId newStatus st.tickets st.shows).1,
        { tickets := (cancelLoop ticketId newStatus st.tickets st.shows).2.1,
          shows := (cancelLoop ticketId newStatus st.tickets st.shows).2.2 }) := by
  simp only [updateTicketStatus, List.take_of_length_le hlen]

theorem updateTicketStatus_length (st : Ledger) (ticketId newStatus : Int) :
    (updateTicketStatus st ticketId newStatus).2.tickets.length
      = min MAX_TICKET st.tickets.length := by
  have := (cancelLoop_frame ticketId newStatus (st.tickets.take MAX_TICKET) st.shows).length_eq
  simp only [updateTicketStatus]
  rw [← this, List.length_take]

/-- On loaded records: for a ledger of at most `MAX_TICKET` records with pairwise distinct
ticket ids, cancelling a ticket whose status is already 0 reports "already canceled" and
leaves both ledgers unchanged; hence a second cancellation of any ticket id changes nothing.
-/
theorem cancel_of_cancelled_ticket (st : Ledger) (t : Ticket)
    (hlen : st.tickets.length ≤ MAX_TICKET)
    (hids : (st.tickets.map Ticket.id).Nodup)
    (ht : t ∈ st.tickets) (hst : t.status = 0) :
    updateTicketStatus st t.id 0 = (true, st) ∧
    ∀ ticketId : Int,
      (updateTicketStatus (updateTicketStatus st ticketId 0).2 ticketId 0).2
        = (updateTicketStatus st ticketId 0).2 := by
  constructor
  · rw [updateTicketStatus_of_small st t.id 0 hlen,
      cancelLoop_cancelled t.id 0 st.tickets st.shows t hids ht rfl hst]
  · intro ticketId
    obtain ⟨h1, h2⟩ := cancelLoop_zero_after ticketId st.tickets st.shows hids
    have hlen2 : (updateTicketStatus st ticketId 0).2.tickets.length ≤ MAX_TICKET := by
      rw [updateTicketStatus_length]; exact min_le_left _ _
    rw [updateTicketStatus_of_small _ ticketId 0 hlen2]
    rw [updateTicketStatus_of_small st ticketId 0 hlen] at *
    simp only at *
    by_cases hex : ∃ u ∈ (cancelLoop ticketId 0 st.tickets st.shows).2.1, u.id = ticketId
    · obtain ⟨u, hu, huid⟩ := hex
      rw [cancelLoop_cancelled ticketId 0 _ _ u (by rw [h1]; exact hids) hu huid (h2 u hu huid)]
    · rw [cancelLoop_absent ticketId 0 _ _ (fun u hu hid => hex ⟨u, hu, hid⟩)]

/-- The repeated cancellation on loaded records at a ledger of two cancelled tickets. -/
theorem cancel_of_cancelled_ticket_witness :
    updateTicketStatus cancelledPair (cancelledTicket 1).id 0 = (true, cancelledPair) ∧
    ∀ ticketId : Int,
      (updateTicketStatus (updateTicketStatus cancelledPair ticketId 0).2 ticketId 0).2
        = (updateTicketStatus cancelledPair ticketId 0).2 :=
  cancel_of_cancelled_ticket cancelledPair (cancelledTicket 1)
    (by decide) (by decide) (by decide) (by decide)

theorem bigLedger_take : bigLedger.tickets.take MAX_TICKET = (List.range 200).map cancelledTicket := by
  simp only [bigLedger, MAX_TICKET, ← List.map_take, List.take_range]
  rfl

/-- On loaded records: in a ticket file of 201 records with distinct ids, the cancelled
ticket with id 200 is not loaded; nothing is reported and the record is missing from the
rewritten file. -/
theorem cancel_of_cancelled_ticket_beyond_capacity :
    (bigLedger.tickets.map Ticket.id).Nodup ∧
    cancelledTicket 200 ∈ bigLedger.tickets ∧ (cancelledTicket 200).status = 0 ∧
    (updateTicketStatus bigLedger (cancelledTicket 200).id 0).1 = false ∧
    cancelledTicket 200 ∉ (updateTicketStatus bigLedger (cancelledTicket 200).id 0).2.tickets := by
  have habs : ∀ t ∈ (List.range 200).map cancelledTicket, t.id ≠ (cancelledTicket 200).id := by
    intro t ht
    obtain ⟨i, hi, rfl⟩ := List.mem_map.1 ht
    have hi' : i < 200 := List.mem_range.1 hi
    simp only [cancelledTicket]
    omega
  have hrun : updateTicketStatus bigLedger (cancelledTicket 200).id 0
      = (false, { tickets := (List.range 200).map cancelledTicket, shows := [] }) := by
    simp only [updateTicketStatus, bigLedger_take]
    rw [cancelLoop_absent _ _ _ _ habs]
    rfl
  refine ⟨?_, ?_, rfl, by rw [hrun], ?_⟩
  · simp only [bigLedger, List.map_map]
    refine (List.nodup_map_iff ?_).2 (List.nodup_range 201)
    intro a b h
    simpa [cancelledTicket] using h
  · exact List.mem_map.2 ⟨200, List.mem_range.2 (by decide), rfl⟩
  · rw [hrun]
    intro hmem
    exact habs _ hmem rfl

/-- On loaded records: for a ledger of at most `MAX_TICKET` records, `updateTicketStatus`
returns the tickets in the same number and order, each one either unchanged or, when its id
is `ticketId` and its status was not 0, changed in its status field only. -/
theorem updateTicketStatus_frame (st : Ledger) (ticketId newStatus : Int)
    (hlen : st.tickets.length ≤ MAX_TICKET) :
    List.Forall₂
      (fun a b => b = a ∨ (a.id = ticketId ∧ a.status ≠ 0 ∧ b = { a with status := newStatus }))
      st.tickets (updateTicketStatus st ticketId newStatus).2.tickets := by
  rw [updateTicketStatus_of_small st ticketId newStatus hlen]
  exact cancelLoop_frame ticketId newStatus st.tickets st.shows

/-- The frame of `updateTicketStatus` on loaded records at a ledger of two Active tickets,
cancelling ticket 1. -/
theorem updateTicketStatus_frame_witness :
    List.Forall₂
      (fun a b => b = a ∨ (a.id = 1 ∧ a.status ≠ 0 ∧ b = { a with status := 0 }))
      (issueTickets demoEnv.rand 9 0 ['b', 'K', 'a', 's', 'h'] ['0', '1', '7']
          ['A', 'B', 'C', '0', '9', '0', '5', '3', '0'] 0 0 [1, 2])
      (updateTicketStatus
        { tickets := issueTickets demoEnv.rand 9 0 ['b', 'K', 'a', 's', 'h'] ['0', '1', '7']
            ['A', 'B', 'C', '0', '9', '0', '5', '3', '0'] 0 0 [1, 2],
          shows := [demoShow 0 5 ['1', ',', '2']] } 1 0).2.tickets :=
  updateTicketStatus_frame
    { tickets := issueTickets demoEnv.rand 9 0 ['b', 'K', 'a', 's', 'h'] ['0', '1', '7']
        ['A', 'B', 'C', '0', '9', '0', '5', '3', '0'] 0 0 [1, 2],
      shows := [demoShow 0 5 ['1', ',', '2']] } 1 0 (by decide)

/-- On loaded records: a ticket file of 201 records is rewritten with 200 records. -/
theorem updateTicketStatus_drops_records_beyond_capacity :
    bigLedger.tickets.length = 201 ∧
    (updateTicketStatus bigLedger 0 0).2.tickets.length = 200 := by
  constructor
  · simp [bigLedger]
  · rw [updateTicketStatus_length]
    simp [bigLedger, MAX_TICKET]

/-! ### Booked fields, record lines, listing, ids and login -/

theorem letters_getD (i : Nat) (h : i < 26) : (letters.getD i 'A').isUpper = true := by
  interval_cases i <;> decide

theorem numbers_getD (i : Nat) (h : i < 10) : (numbers.getD i '0').isDigit = true := by
  interval_cases i <;> decide

/-- C18: for every random sequence `generateRandomCode( code, 10 )` leaves exactly nine
characters: three uppercase letters, five decimal digits, one uppercase letter. -/
theorem generateRandomCode_format (rand : Nat → Nat) (pos : Nat) :
    ∃ a b c d1 d2 d3 d4 d5 e : Char,
      generateRandomCode rand pos 10 = [a, b, c, d1, d2, d3, d4, d5, e] ∧
      a.isUpper = true ∧ b.isUpper = true ∧ c.isUpper = true ∧
      d1.isDigit = true ∧ d2.isDigit = true ∧ d3.isDigit = true ∧ d4.isDigit = true ∧
      d5.isDigit = true ∧ e.isUpper = true :=
  ⟨_, _, _, _, _, _, _, _, _, rfl,
    letters_getD _ (Nat.mod_lt _ (by decide)), letters_getD _ (Nat.mod_lt _ (by decide)),
    letters_getD _ (Nat.mod_lt _ (by decide)), numbers_getD _ (Nat.mod_lt _ (by decide)),
    numbers_getD _ (Nat.mod_lt _ (by decide)), numbers_getD _ (Nat.mod_lt _ (by decide)),
    numbers_getD _ (Nat.mod_lt _ (by decide)), numbers_getD _ (Nat.mod_lt _ (by decide)),
    letters_getD _ (Nat.mod_lt _ (by decide))⟩

theorem fmt02d_two_digits (n : Nat) (h : n < 60) :
    fmt02d n = [Nat.digitChar (n / 10), Nat.digitChar (n % 10)] := by
  interval_cases n <;> rfl

theorem generateRandomChar_alnum (r : Nat) :
    (generateRandomChar r).isDigit = true ∨ (generateRandomChar r).isUpper = true := by
  have h : r % 36 < 36 := Nat.mod_lt _ (by decide)
  unfold generateRandomChar
  generalize r % 36 = k at h
  interval_cases k <;> decide

/-- C19: for a clock time with hour below 24, minute and second below 60, the call
`generateTransactionNumber( transactionNum, 10 )` leaves exactly nine characters, the whole
formatted text: three characters that are digits or uppercase letters, then hour, minute
and second as two decimal digits each. -/
theorem generateTransactionNumber_format (rand : Nat → Nat) (pos hour minute second : Nat)
    (hh : hour < 24) (hm : minute < 60) (hs : second < 60) :
    generateTransactionNumber rand pos hour minute second 10 =
      [generateRandomChar (rand pos), generateRandomChar (rand (pos + 1)),
       generateRandomChar (rand (pos + 2)),
       Nat.digitChar (hour / 10), Nat.digitChar (hour % 10),
       Nat.digitChar (minute / 10), Nat.digitChar (minute % 10),
       Nat.digitChar (second / 10), Nat.digitChar (second % 10)] ∧
    generateTransactionNumber rand pos hour minute second 10 =
      [generateRandomChar (rand pos), generateRandomChar (rand (pos + 1)),
       generateRandomChar (rand (pos + 2))] ++ fmt02d hour ++ fmt02d minute ++ fmt02d second ∧
    (∀ i, i < 3 → (generateRandomChar (rand (pos + i))).isDigit = true ∨
      (generateRandomChar (rand (pos + i))).isUpper = true) := by
  have e1 := fmt02d_two_digits hour (by omega)
  have e2 := fmt02d_two_digits minute hm
  have e3 := fmt02d_two_digits second hs
  refine ⟨?_, ?_, fun i _ => generateRandomChar_alnum _⟩
  · simp only [generateTransactionNumber, e1, e2, e3]; rfl
  · simp only [generateTransactionNumber, e1, e2, e3]; rfl

/-- C19 at 09:05:30. -/
theorem generateTransactionNumber_format_witness :
    generateTransactionNumber demoEnv.rand 18 9 5 30 10
      = ['L', 'S', 'Z', '0', '9', '0', '5', '3', '0'] :=
  (generateTransactionNumber_format demoEnv.rand 18 9 5 30
    (by decide) (by decide) (by decide)).1

/-- C14: the header `updateBookedFieldInFile` writes names the eight columns of the show
record in record order, the header `buyTicket` writes has no `venue` column; the two
rewrites of the show file begin with different lines. -/
theorem buyTicket_header_lacks_venue (shows : List Show) :
    firstLine (updateBookedFieldInFileShowFile shows) = List.intercalate ['|'] showColumns ∧
    firstLine (buyTicketShowFile shows) = "id|singer|date|type|price|seats|booked".toList ∧
    firstLine (buyTicketShowFile shows) ≠ firstLine (updateBookedFieldInFileShowFile shows) := by
  have h1 : firstLine (updateBookedFieldInFileShowFile shows)
      = List.intercalate ['|'] showColumns := rfl
  have h2 : firstLine (buyTicketShowFile shows)
      = "id|singer|date|type|price|seats|booked".toList := rfl
  refine ⟨h1, h2, ?_⟩
  rw [h1, h2]
  decide

/-- C13: the record line of show 1 (5 seats) with an empty booked field is loaded into an
array element that held the booked text "4"; the booked conversion fails, the element keeps
"4", and `viewUpcomingShows` prints 4 available seats instead of 5. -/
theorem load_of_empty_booked_keeps_slot :
    fprintfShow (demoShow 1 5 []) = "1|Ayub|15,8,2030|Dhaka|Rock|500|5|\n".toList ∧
    sscanfShow (demoShow 7 9 ['4']) (fprintfShow (demoShow 1 5 [])) = demoShow 1 5 ['4'] ∧
    ((viewUpcomingShows [sscanfShow (demoShow 7 9 ['4']) (fprintfShow (demoShow 1 5 []))]
        (1, 1, 2030) (0, 0, 0) true false []).1.map fun e => e.availableSeats) = [4] := by
  decide

/-- C17: with one show (id 4) listed and selection enabled, entering 1 returns id 4, but
`selectPopup` is called with 2 and accepts the entry 2, after which the element at index 1,
which was never assigned, is returned; on the entry -1 the element at index -2 is read
instead of -1 being returned. -/
theorem viewUpcomingShows_selection_out_of_list :
    ((viewUpcomingShows [demoShow 4 5 []] (1, 1, 2030) (0, 0, 0) true true [1]).1.map
      fun e => (e.serial, e.shown.id)) = [(1, 4)] ∧
    (viewUpcomingShows [demoShow 4 5 []] (1, 1, 2030) (0, 0, 0) true true [1]).2
      = Returned.value 4 ∧
    selectPopup 2 [2] = some 2 ∧
    (viewUpcomingShows [demoShow 4 5 []] (1, 1, 2030) (0, 0, 0) true true [2]).2
      = Returned.unassignedRead 1 ∧
    (viewUpcomingShows [demoShow 4 5 []] (1, 1, 2030) (0, 0, 0) true true [-1]).2
      = Returned.unassignedRead (-2) := by
  decide

/-- C20: with the user alice stored, choosing "Register" and typing the existing username
alice is rejected by `registerUser`, and `login` returns user id 0: alice is logged in
without a password. -/
theorem login_after_rejected_registration :
    registerUser [demoUser] ["alice".toList] = some ([demoUser], []) ∧
    login [demoUser] [1] ["alice".toList] = some (0, [demoUser]) := by
  decide

theorem strtokAll_nil : strtokAll [] = [] := rfl

theorem seatValue_concat (tok : CStr) (c : Char) :
    seatValue (tok ++ [c]) = seatValue tok * 10 + digitVal c := by
  simp [seatValue, List.foldl_append]

theorem strtokAll_bookedText (l : List Int) : strtokAll (bookedText l) = l.map itoa := by
  induction l with
  | nil => rfl
  | cons a l ih =>
    cases l with
    | nil =>
      have : bookedText [a] = itoa a := by simp [bookedText, List.intercalate]
      rw [this, strtokAll_itoa]; rfl
    | cons b l =>
      have hb : bookedText (a :: b :: l) = itoa a ++ ',' :: bookedText (b :: l) := by
        simp [bookedText, List.intercalate, List.intersperse]
      rw [hb]
      unfold strtokAll at ih ⊢
      rw [strtokFrom_append_comma, ih]
      have := strtokAll_itoa a
      unfold strtokAll at this
      rw [this]; rfl

theorem seatValue_itoa (n : Int) (h : 0 ≤ n) : seatValue (itoa n) = n := by
  cases n with
  | ofNat m => exact seatValue_toDigits m
  | negSucc m => exact absurd h (by simp [Int.negSucc_lt_zero])

theorem map_seatValue_itoa (l : List Int) (h : ∀ x ∈ l, 0 ≤ x) :
    (l.map itoa).map seatValue = l := by
  induction l with
  | nil => rfl
  | cons a l ih =>
    simp only [List.map_cons]
    rw [seatValue_itoa a (h a (by simp)), ih (fun x hx => h x (by simp [hx]))]

theorem parseBooked_bookedText (l : List Int) (h : ∀ x ∈ l, 0 ≤ x) :
    parseBooked (bookedText l) = l := by
  unfold parseBooked
  rw [strtokAll_bookedText, map_seatValue_itoa l h]

/-- The tokens `updateBookedField` leaves, for any field and any state of its loops: the
decimal texts of the values read from the tokens, those equal to `seatNumber` left out. -/
theorem updateBookedFrom_tokens (seatNumber : Int) (s : CStr) :
    (strtokAll (updateBookedFrom seatNumber none s)
      = (((strtokFrom [] s).map seatValue).filter (fun v => decide (v ≠ seatNumber))).map itoa) ∧
    ∀ tok : CStr, tok ≠ [] →
      strtokAll (updateBookedFrom seatNumber (some (seatValue tok)) s)
        = (((strtokFrom tok s).map seatValue).filter
            (fun v => decide (v ≠ seatNumber))).map itoa := by
  induction s with
  | nil =>
    refine ⟨rfl, ?_⟩
    intro tok htok
    simp only [updateBookedFrom, strtokFrom, if_neg htok, List.map_cons, List.map_nil]
    by_cases hv : seatValue tok = seatNumber
    · simp [hv, strtokAll_nil]
    · simp [hv, strtokAll_itoa]
  | cons c rest ih =>
    obtain ⟨ih1, ih2⟩ := ih
    by_cases hc : c = ','
    · subst hc
      refine ⟨?_, ?_⟩
      · simp only [updateBookedFrom, strtokFrom, if_true]
        exact ih1
      · intro tok htok
        simp only [updateBookedFrom, strtokFrom, if_true, if_neg htok, List.map_cons]
        by_cases hv : seatValue tok = seatNumber
        · simp only [hv, ne_eq, not_true_eq_false, if_false, List.nil_append]
          rw [ih1]
          simp
        · simp only [ne_eq, hv, not_false_eq_true, if_true, List.append_assoc,
            List.singleton_append]
          unfold strtokAll
          rw [strtokFrom_append_comma]
          have h1 := strtokAll_itoa (seatValue tok)
          unfold strtokAll at h1 ih1
          rw [h1, ih1]
          simp [hv]
    · refine ⟨?_, ?_⟩
      · simp only [updateBookedFrom, strtokFrom, if_neg hc, List.nil_append]
        have := ih2 [c] (by simp)
        have hsv : seatValue [c] = 0 * 10 + digitVal c := by simp [seatValue]
        rw [hsv] at this
        exact this
      · intro tok htok
        simp only [updateBookedFrom, strtokFrom, if_neg hc]
        have := ih2 (tok ++ [c]) (by simp)
        rw [seatValue_concat] at this
        exact this

theorem strtokAll_updateBookedField (booked : CStr) (seatNumber : Int) :
    strtokAll (updateBookedField booked seatNumber)
      = ((parseBooked booked).filter (fun v => decide (v ≠ seatNumber))).map itoa :=
  (updateBookedFrom_tokens seatNumber booked).1

/-- C11: for a list `l` of non-negative seat numbers and any seat number `n`, the seats
read from the field `updateBookedField` leaves for the comma-separated text of `l` are `l`
without the occurrences of `n`, in the same order; when `n` does not occur the seats read
are those of the field before the call. -/
theorem updateBookedField_removes_seat (l : List Int) (n : Int) (h : ∀ x ∈ l, 0 ≤ x) :
    parseBooked (updateBookedField (bookedText l) n) = l.filter (fun x => decide (x ≠ n)) ∧
    (n ∉ l → parseBooked (updateBookedField (bookedText l) n) = parseBooked (bookedText l)) := by
  have hmain : parseBooked (updateBookedField (bookedText l) n)
      = l.filter (fun x => decide (x ≠ n)) := by
    unfold parseBooked
    rw [strtokAll_updateBookedField, parseBooked_bookedText l h]
    exact map_seatValue_itoa _ (fun x hx => h x (List.mem_of_mem_filter hx))
  refine ⟨hmain, ?_⟩
  intro hn
  rw [hmain, parseBooked_bookedText l h]
  apply List.filter_eq_self.2
  intro x hx
  have : x ≠ n := fun e => hn (e ▸ hx)
  simpa using this

/-- C11 at the lists [2, 7, 9, 7] (removing 7) and [2, 7, 9] (removing 9). -/
theorem updateBookedField_removes_seat_witness :
    parseBooked (updateBookedField (bookedText [2, 7, 9, 7]) 7) = [2, 9] ∧
    parseBooked (updateBookedField (bookedText [2, 7, 9]) 9) = [2, 7] :=
  ⟨(updateBookedField_removes_seat [2, 7, 9, 7] 7 (by decide)).1,
   (updateBookedField_removes_seat [2, 7, 9] 9 (by decide)).1⟩

theorem numbers_isDigit (c : Char) (h : c ∈ numbers) : c.isDigit = true := by
  simp only [numbers, List.mem_cons, List.mem_singleton, List.not_mem_nil, or_false] at h
  rcases h with h | h | h | h | h | h | h | h | h | h <;> subst h <;> decide

theorem numbers_not_space (c : Char) (h : c ∈ numbers) :
    isspace c = false ∧ c ≠ '-' ∧ c ≠ '+' := by
  simp only [numbers, List.mem_cons, List.mem_singleton, List.not_mem_nil, or_false] at h
  rcases h with h | h | h | h | h | h | h | h | h | h <;> subst h <;> decide

theorem scanDigits_append (ds : CStr) (r : CStr) (hds : ∀ c ∈ ds, c ∈ numbers)
    (hr : NoDigitAhead r) : ∀ acc : Int,
    scanDigits acc (ds ++ r) = (ds.foldl (fun cur c => cur * 10 + digitVal c) acc, r) := by
  induction ds with
  | nil =>
    intro acc
    cases r with
    | nil => rfl
    | cons c r =>
      have : c.isDigit = false := hr c (by simp)
      simp [scanDigits, this]
  | cons d ds ih =>
    intro acc
    have hd : d.isDigit = true := numbers_isDigit d (hds d (by simp))
    simp only [List.cons_append, scanDigits, hd, if_true, List.foldl_cons]
    exact ih (fun c hc => hds c (by simp [hc])) _

theorem toDigits_cons (m : Nat) : ∃ d ds, Nat.toDigits 10 m = d :: ds ∧ d ∈ numbers := by
  cases h : Nat.toDigits 10 m with
  | nil => exact absurd h (toDigits_ne_nil m)
  | cons d ds => exact ⟨d, ds, rfl, toDigits_mem m d (by rw [h]; simp)⟩

theorem scanInt_itoa (n : Int) (r : CStr) (hr : NoDigitAhead r) :
    scanInt (itoa n ++ r) = some (n, r) := by
  cases n with
  | ofNat m =>
    obtain ⟨d, ds, hd, hdn⟩ := toDigits_cons m
    obtain ⟨h1, h2, h3⟩ := numbers_not_space d hdn
    have hdig : d.isDigit = true := numbers_isDigit d hdn
    have hsc := scanDigits_append (Nat.toDigits 10 m) r (toDigits_mem m) hr 0
    have hv : (Nat.toDigits 10 m).foldl (fun cur c => cur * 10 + digitVal c) 0 = (m : Int) :=
      seatValue_toDigits m
    rw [hv, hd] at hsc
    simp only [itoa, hd, List.cons_append, scanInt, skipSpace, h1, Bool.false_eq_true,
      if_false, h2, h3, or_self, hdig, if_true]
    rw [List.cons_append] at hsc
    rw [hsc]; rfl
  | negSucc m =>
    obtain ⟨d, ds, hd, hdn⟩ := toDigits_cons (m + 1)
    have hdig : d.isDigit = true := numbers_isDigit d hdn
    have hsc := scanDigits_append (Nat.toDigits 10 (m + 1)) r (toDigits_mem (m + 1)) hr 0
    have hv : (Nat.toDigits 10 (m + 1)).foldl (fun cur c => cur * 10 + digitVal c) 0
        = ((m + 1 : Nat) : Int) := seatValue_toDigits (m + 1)
    rw [hv] at hsc
    have hsp : isspace '-' = false := by decide
    simp only [itoa, List.cons_append, scanInt, skipSpace, hsp, Bool.false_eq_true, if_false,
      true_or, if_true]
    rw [hd] at hsc ⊢
    simp only [List.cons_append] at hsc ⊢
    have e : (d :: ds).append r = d :: (ds ++ r) := rfl
    rw [e]
    simp only [hdig, if_true, hsc]
    rfl

theorem scanInt_itoa_end (n : Int) : scanInt (itoa n) = some (n, []) := by
  have := scanInt_itoa n [] (by intro c hc; simp at hc)
  simpa using this

theorem scanUntil_append (stop : Char) (f r : CStr) (hf : stop ∉ f) :
    scanUntil stop (f ++ stop :: r) = (f, stop :: r) := by
  induction f with
  | nil => simp [scanUntil]
  | cons c f ih =>
    simp only [List.mem_cons, not_or] at hf
    have hc : c ≠ stop := fun e => hf.1 e.symm
    have := ih hf.2
    simp [scanUntil, hc, this]

theorem field_after_bar (stop : Char) (f r : CStr) (hne : f ≠ []) (hf : stop ∉ f) :
    (matchLit '|' ('|' :: (f ++ stop :: r))).bind (scanSet stop) = some (f, stop :: r) := by
  simp [matchLit, scanSet, scanUntil_append stop f r hf, hne]

theorem int_after_bar (n : Int) (r : CStr) (hr : NoDigitAhead r) :
    (matchLit '|' ('|' :: (itoa n ++ r))).bind scanInt = some (n, r) := by
  simp [matchLit, scanInt_itoa n r hr]

theorem noDigitAhead_bar (r : CStr) : NoDigitAhead ('|' :: r) := by
  intro c hc
  simp only [List.head?_cons, Option.mem_def, Option.some.injEq] at hc
  subst hc; decide

theorem noDigitAhead_comma (r : CStr) : NoDigitAhead (',' :: r) := by
  intro c hc
  simp only [List.head?_cons, Option.mem_def, Option.some.injEq] at hc
  subst hc; decide

/-- The line of a show parses back field by field; the booked conversion succeeds exactly
when the booked field is not empty. -/
theorem sscanfShow_fprintfShow (slot s : Show)
    (h1 : s.singer ≠ [] ∧ '|' ∉ s.singer) (h2 : s.date ≠ [] ∧ '|' ∉ s.date)
    (h3 : s.venue ≠ [] ∧ '|' ∉ s.venue) (h4 : s.type ≠ [] ∧ '|' ∉ s.type)
    (hb : '\n' ∉ s.booked) :
    sscanfShow slot (fprintfShow s)
      = { s with booked := if s.booked = [] then slot.booked else s.booked } := by
  have e0 : fprintfShow s = itoa s.id ++ ('|' :: (s.singer ++ '|' :: (s.date ++ '|' ::
      (s.venue ++ '|' :: (s.type ++ '|' :: (itoa s.price ++ ('|' :: (itoa s.seats ++
        ('|' :: (s.booked ++ '\n' :: [])))))))))) := by
    simp [fprintfShow]
  unfold sscanfShow
  rw [e0, scanInt_itoa _ _ (noDigitAhead_bar _)]
  simp only
  rw [field_after_bar '|' s.singer _ h1.1 h1.2]
  simp only
  rw [field_after_bar '|' s.date _ h2.1 h2.2]
  simp only
  rw [field_after_bar '|' s.venue _ h3.1 h3.2]
  simp only
  rw [field_after_bar '|' s.type _ h4.1 h4.2]
  simp only
  rw [int_after_bar _ _ (noDigitAhead_bar _)]
  simp only
  rw [int_after_bar _ _ (noDigitAhead_bar _)]
  simp only
  by_cases hne : s.booked = []
  · simp [hne, matchLit, scanSet, scanUntil]
  · rw [field_after_bar '\n' s.booked [] hne hb]
    simp [hne]

/-- C12: for a show whose four text fields are non-empty and free of `|` and whose booked
field is non-empty and free of newlines, the load `sscanf` applied to the record line the
save `fprintf` writes returns the same show, whatever the array element held before; in
particular the same booked seats are read from it. -/
theorem show_record_roundtrip (slot s : Show)
    (h1 : s.singer ≠ [] ∧ '|' ∉ s.singer) (h2 : s.date ≠ [] ∧ '|' ∉ s.date)
    (h3 : s.venue ≠ [] ∧ '|' ∉ s.venue) (h4 : s.type ≠ [] ∧ '|' ∉ s.type)
    (hb : s.booked ≠ [] ∧ '\n' ∉ s.booked) :
    sscanfShow slot (fprintfShow s) = s ∧
    parseBooked (sscanfShow slot (fprintfShow s)).booked = parseBooked s.booked := by
  have h := sscanfShow_fprintfShow slot s h1 h2 h3 h4 hb.2
  rw [if_neg hb.1] at h
  rw [h]
  exact ⟨rfl, rfl⟩

/-- C12 at a show with booked list {2, 7, 9}. -/
theorem show_record_roundtrip_witness :
    sscanfShow (demoShow 7 9 ['4']) (fprintfShow (demoShow 1 10 (bookedText [2, 7, 9])))
      = demoShow 1 10 (bookedText [2, 7, 9]) ∧
    parseBooked (sscanfShow (demoShow 7 9 ['4'])
      (fprintfShow (demoShow 1 10 (bookedText [2, 7, 9])))).booked = [2, 7, 9] :=
  ⟨(show_record_roundtrip (demoShow 7 9 ['4']) (demoShow 1 10 (bookedText [2, 7, 9]))
      (by decide) (by decide) (by decide) (by decide) (by decide)).1, by decide⟩

theorem bookedText_no_newline (l : List Int) : '\n' ∉ bookedText l := by
  intro h
  have hsplit : ∀ (l : List Int), '\n' ∈ bookedText l → ∃ x ∈ l, '\n' ∈ itoa x := by
    intro l
    induction l with
    | nil => intro h; simp [bookedText_nil] at h
    | cons a l ih =>
      cases l with
      | nil =>
        intro h
        have : bookedText [a] = itoa a := by simp [bookedText, List.intercalate]
        rw [this] at h
        exact ⟨a, by simp, h⟩
      | cons b l =>
        intro h
        have hb : bookedText (a :: b :: l) = itoa a ++ ',' :: bookedText (b :: l) := by
          simp [bookedText, List.intercalate, List.intersperse]
        rw [hb] at h
        rcases List.mem_append.1 h with h | h
        · exact ⟨a, by simp, h⟩
        · rcases List.mem_cons.1 h with h | h
          · exact absurd h (by decide)
          · obtain ⟨x, hx, hx2⟩ := ih h
            exact ⟨x, by simp [hx], hx2⟩
  obtain ⟨x, _, hx⟩ := hsplit l h
  cases x with
  | ofNat m => exact absurd (toDigits_mem m _ hx) (by decide)
  | negSucc m =>
    simp only [itoa, List.mem_cons] at hx
    rcases hx with hx | hx
    · exact absurd hx (by decide)
    · exact absurd (toDigits_mem _ _ hx) (by decide)

theorem sscanfDate_dateText (vars : Int × Int × Int) (day month year : Int) :
    sscanfDate vars (dateText day month year) = (day, month, year) := by
  have e0 : dateText day month year = itoa day ++ (',' :: (itoa month ++ (',' :: (itoa year))))
      := by simp [dateText]
  unfold sscanfDate
  rw [e0, scanInt_itoa _ _ (noDigitAhead_comma _)]
  simp only [matchLit, if_true, Option.bind_some, Option.some_bind]
  rw [scanInt_itoa _ _ (noDigitAhead_comma _)]
  simp only [matchLit, if_true, Option.bind_some, Option.some_bind]
  rw [scanInt_itoa_end]

theorem dateLE_iff (a b : Int × Int × Int) :
    DateLE a b ↔
      (a.2.2 < b.2.2 ∨ a.2.2 = b.2.2 ∧ (a.2.1 < b.2.1 ∨ a.2.1 = b.2.1 ∧ a.1 ≤ b.1)) := by
  unfold DateLE
  rw [Prod.Lex.le_iff]
  simp only
  constructor
  · rintro (h | ⟨h1, h2⟩)
    · exact Or.inl h
    · exact Or.inr ⟨h1, (Prod.Lex.le_iff _ _).1 h2⟩
  · rintro (h | ⟨h1, h2⟩)
    · exact Or.inl h
    · exact Or.inr ⟨h1, (Prod.Lex.le_iff _ _).2 h2⟩

theorem upcomingTest_iff (d m y cd cm cy : Int) :
    upcomingTest d m y cd cm cy = true ↔ DateLE (cd, cm, cy) (d, m, y) := by
  rw [dateLE_iff]
  simp only [upcomingTest, decide_eq_true_eq]
  constructor
  · rintro (h | ⟨h1, h2⟩ | ⟨h1, h2, h3⟩)
    · exact Or.inl h
    · exact Or.inr ⟨h1.symm, Or.inl h2⟩
    · exact Or.inr ⟨h1.symm, Or.inr ⟨h2.symm, h3⟩⟩
  · rintro (h | ⟨h1, h2 | ⟨h2, h3⟩⟩)
    · exact Or.inl h
    · exact Or.inr (Or.inl ⟨h1.symm, h2⟩)
    · exact Or.inr (Or.inr ⟨h1.symm, h2.symm, h3⟩)

theorem listLoop_spec (today : Int × Int × Int) (dmy : Show → Int × Int × Int)
    (shows : List Show)
    (hdate : ∀ s ∈ shows, s.date = dateText (dmy s).1 (dmy s).2.1 (dmy s).2.2) :
    ∀ (vars : Int × Int × Int) (serial : Int),
      (listLoop today vars true serial shows).map Listed.shown
        = shows.filter (fun s => decide (DateLE today (dmy s))) ∧
      (listLoop today vars true serial shows).map Listed.serial
        = (List.range (listLoop today vars true serial shows).length).map
            (fun i : Nat => serial + (i : Int)) ∧
      ∀ e ∈ listLoop today vars true serial shows,
        e.availableSeats = e.shown.seats - (countBookedSeats e.shown.booked : Int) := by
  induction shows with
  | nil => intro vars serial; simp [listLoop]
  | cons s rest ih =>
    intro vars serial
    have hs := hdate s (by simp)
    have hrest : ∀ x ∈ rest, x.date = dateText (dmy x).1 (dmy x).2.1 (dmy x).2.2 :=
      fun x hx => hdate x (by simp [hx])
    have hparse : sscanfDate vars s.date = dmy s := by
      rw [hs, sscanfDate_dateText]
    by_cases ht : DateLE today (dmy s)
    · have htest : upcomingTest (dmy s).1 (dmy s).2.1 (dmy s).2.2 today.1 today.2.1 today.2.2
          = true := (upcomingTest_iff _ _ _ _ _ _).2 ht
      obtain ⟨h1, h2, h3⟩ := ih hrest (dmy s) (serial + 1)
      have hl : listLoop today vars true serial (s :: rest)
          = { serial := serial, shown := s,
              availableSeats := s.seats - (countBookedSeats s.booked : Int) } ::
            listLoop today (dmy s) true (serial + 1) rest := by
        simp [listLoop, hparse, htest]
      rw [hl]
      refine ⟨?_, ?_, ?_⟩
      · simp only [List.map_cons, List.filter_cons, ht, decide_True, if_true, h1]
      · simp only [List.map_cons, List.length_cons, List.range_succ_eq_map, h2, List.map_map]
        simp only [Nat.cast_zero, add_zero, List.cons.injEq, true_and]
        apply List.map_congr_left
        intro i _
        simp only [Function.comp, Nat.succ_eq_add_one, Nat.cast_add, Nat.cast_one]
        ring
      · intro e he
        rcases List.mem_cons.1 he with he | he
        · subst he; rfl
        · exact h3 e he
    · have htest : ¬ upcomingTest (dmy s).1 (dmy s).2.1 (dmy s).2.2 today.1 today.2.1 today.2.2
          = true := fun h => ht ((upcomingTest_iff _ _ _ _ _ _).1 h)
      have hl : listLoop today vars true serial (s :: rest)
          = listLoop today (dmy s) true serial rest := by
        simp [listLoop, hparse, htest]
      rw [hl]
      obtain ⟨h1, h2, h3⟩ := ih hrest (dmy s) serial
      refine ⟨?_, h2, h3⟩
      simp only [List.filter_cons, ht, decide_False, Bool.false_eq_true, if_false, h1]

theorem viewUpcomingShows_listed (shows : List Show) (today vars : Int × Int × Int)
    (viewContent hasSelect : Bool) (typed : List Int) :
    (viewUpcomingShows shows today vars viewContent hasSelect typed).1
      = listLoop today vars viewContent 1 shows := by
  unfold viewUpcomingShows
  simp only
  split
  · rfl
  · split
    · split <;> rfl
    · rfl

theorem viewUpcomingShows_without_content (shows : List Show) (today vars : Int × Int × Int)
    (hasSelect : Bool) (typed : List Int) :
    viewUpcomingShows shows today vars false hasSelect typed = ([], Returned.value (-1)) := by
  have h : ∀ (l : List Show) (v : Int × Int × Int) (serial : Int),
      listLoop today v false serial l = [] := by
    intro l
    induction l with
    | nil => intro v serial; rfl
    | cons s rest ih => intro v serial; simp [listLoop, ih]
  simp [viewUpcomingShows, h]

/-- On the loaded array: when every show date is written `day,month,year` and `viewContent`
is set, the shows listed are exactly the shows whose date is on or after the current date in
calendar order, in ledger order, with the serial numbers 1, 2, ...; each is listed with
`seats` minus the number of tokens of its booked field (the length of its booked list). With
`viewContent` unset nothing is listed and -1 is returned. -/
theorem viewUpcomingShows_lists_upcoming (shows : List Show) (dmy : Show → Int × Int × Int)
    (today vars : Int × Int × Int) (hasSelect : Bool) (typed : List Int)
    (hdate : ∀ s ∈ shows, s.date = dateText (dmy s).1 (dmy s).2.1 (dmy s).2.2) :
    (viewUpcomingShows shows today vars true hasSelect typed).1.map Listed.shown
      = shows.filter (fun s => decide (DateLE today (dmy s))) ∧
    (viewUpcomingShows shows today vars true hasSelect typed).1.map Listed.serial
      = (List.range (viewUpcomingShows shows today vars true hasSelect typed).1.length).map
          (fun i : Nat => 1 + (i : Int)) ∧
    (∀ e ∈ (viewUpcomingShows shows today vars true hasSelect typed).1,
      e.availableSeats = e.shown.seats - (countBookedSeats e.shown.booked : Int) ∧
      ∀ l : List Int, e.shown.booked = bookedText l →
        e.availableSeats = e.shown.seats - (l.length : Int)) ∧
    viewUpcomingShows shows today vars false hasSelect typed = ([], Returned.value (-1)) := by
  rw [viewUpcomingShows_listed]
  obtain ⟨h1, h2, h3⟩ := listLoop_spec today dmy shows hdate vars 1
  refine ⟨h1, h2, ?_, viewUpcomingShows_without_content shows today vars hasSelect typed⟩
  intro e he
  refine ⟨h3 e he, ?_⟩
  intro l hl
  rw [h3 e he, hl, countBookedSeats, strtokAll_bookedText, List.length_map]

/-- The listing of the loaded array at three shows dated 15,8,2030, 1,1,2020 and
31,12,2030. -/
theorem viewUpcomingShows_lists_upcoming_witness :
    ((viewUpcomingShows twoDates (16, 8, 2030) (0, 0, 0) true false []).1.map Listed.shown
      = twoDates.filter
          (fun s => decide (DateLE (16, 8, 2030) (sscanfDate (0, 0, 0) s.date)))) ∧
    ((viewUpcomingShows twoDates (16, 8, 2030) (0, 0, 0) true false []).1.map
      fun e => (e.serial, e.shown.id, e.availableSeats)) = [(1, 3, 7)] ∧
    ((viewUpcomingShows twoDates (15, 8, 2030) (0, 0, 0) true false []).1.map
      fun e => (e.serial, e.shown.id, e.availableSeats)) = [(1, 1, 3), (2, 3, 7)] :=
  ⟨(viewUpcomingShows_lists_upcoming twoDates (fun s => sscanfDate (0, 0, 0) s.date)
      (16, 8, 2030) (0, 0, 0) false [] (by decide)).1, by decide, by decide⟩

theorem buyTicket_tickets (env : Env) (st : Ledger) (userId showId : Int)
    (inp : PurchaseInput) :
    ∃ new : List Ticket,
      (buyTicket env st userId showId inp).2.tickets = st.tickets ++ new ∧
      new.map Ticket.id = (List.range' st.tickets.length new.length).map Int.ofNat := by
  cases hf : st.shows.find? (fun x => decide (x.id = showId)) with
  | none =>
    rw [buyTicket_of_find_none env st userId showId inp hf]
    exact ⟨[], by simp, by simp⟩
  | some s =>
    obtain ⟨pre, post, _, _, _, h4⟩ := buyTicket_of_find_some env st userId showId inp s hf
    rw [h4]
    rcases hp : purchaseOnShow env st.tickets userId showId inp s with o | ⟨t1, s1⟩
    · exact ⟨[], by simp, by simp⟩
    · obtain ⟨_, _, pm, _, q4, _⟩ := purchaseOnShow_ok env st.tickets userId showId inp s t1 s1 hp
      subst q4
      refine ⟨issueTickets env.rand userId showId pm inp.payment_account
        (generateTransactionNumber env.rand (9 * inp.seats.length)
          env.hour env.minute env.second 10) st.tickets.length 0 inp.seats, rfl, ?_⟩
      have hspec := issueTickets_spec env.rand userId showId pm inp.payment_account
        (generateTransactionNumber env.rand (9 * inp.seats.length)
          env.hour env.minute env.second 10) inp.seats st.tickets.length 0
      have hlen : (issueTickets env.rand userId showId pm inp.payment_account
          (generateTransactionNumber env.rand (9 * inp.seats.length)
            env.hour env.minute env.second 10) st.tickets.length 0 inp.seats).length
          = inp.seats.length := by
        have := congrArg List.length hspec.1
        simpa using this
      rw [hlen]
      exact hspec.2.1

theorem forall₂_ids (ticketId newStatus : Int) (l1 l2 : List Ticket)
    (h : List.Forall₂
      (fun a b => b = a ∨ (a.id = ticketId ∧ a.status ≠ 0 ∧ b = { a with status := newStatus }))
      l1 l2) : l2.map Ticket.id = l1.map Ticket.id := by
  induction h with
  | nil => rfl
  | cons hab _ ih =>
    simp only [List.map_cons, ih, List.cons.injEq, and_true]
    rcases hab with h | ⟨_, _, h⟩ <;> rw [h]

theorem updateTicketStatus_ids (st : Ledger) (ticketId newStatus : Int) :
    (updateTicketStatus st ticketId newStatus).2.tickets.map Ticket.id
      = (st.tickets.map Ticket.id).take MAX_TICKET := by
  have := forall₂_ids ticketId newStatus _ _
    (cancelLoop_frame ticketId newStatus (st.tickets.take MAX_TICKET) st.shows)
  simp only [updateTicketStatus]
  rw [this, List.map_take]

theorem idsArePositions_buy (env : Env) (st : Ledger) (userId showId : Int)
    (inp : PurchaseInput) (h : IdsArePositions st.tickets) :
    IdsArePositions (buyTicket env st userId showId inp).2.tickets := by
  obtain ⟨new, h1, h2⟩ := buyTicket_tickets env st userId showId inp
  unfold IdsArePositions at h ⊢
  rw [h1, List.map_append, h, h2, List.length_append, List.range_add, List.map_append,
    List.range'_eq_map_range]

theorem idsArePositions_cancel (st : Ledger) (ticketId newStatus : Int)
    (h : IdsArePositions st.tickets) :
    IdsArePositions (updateTicketStatus st ticketId newStatus).2.tickets := by
  unfold IdsArePositions at h ⊢
  rw [updateTicketStatus_ids, updateTicketStatus_length, h, ← List.map_take, List.take_range]

theorem idsArePositions_runOps (ops : List Op) : ∀ st : Ledger,
    IdsArePositions st.tickets → IdsArePositions (runOps st ops).tickets := by
  induction ops with
  | nil => intro st h; exact h
  | cons op ops ih =>
    intro st h
    simp only [runOps, List.foldl_cons]
    apply ih
    cases op with
    | buy env userId showId inp => exact idsArePositions_buy env st userId showId inp h
    | cancel ticketId => exact idsArePositions_cancel st ticketId 0 h

/-- On records that load back as saved: in every ledger reached from a ledger without
tickets by purchases and cancellations the ticket ids are pairwise distinct (they are the
positions 0, 1, 2, ...), and the tickets a further purchase issues get the next integers as
ids, each greater than every id already in the ledger. -/
theorem ticket_ids_distinct_and_increasing (st : Ledger) (ops : List Op)
    (h : st.tickets = []) :
    ((runOps st ops).tickets.map Ticket.id).Nodup ∧
    (runOps st ops).tickets.map Ticket.id
      = (List.range (runOps st ops).tickets.length).map Int.ofNat ∧
    ∀ (env : Env) (userId showId : Int) (inp : PurchaseInput),
      ∃ new : List Ticket,
        (buyTicket env (runOps st ops) userId showId inp).2.tickets
          = (runOps st ops).tickets ++ new ∧
        new.map Ticket.id
          = (List.range' (runOps st ops).tickets.length new.length).map Int.ofNat ∧
        ∀ t ∈ new, ∀ u ∈ (runOps st ops).tickets, u.id < t.id := by
  have hinv : IdsArePositions (runOps st ops).tickets :=
    idsArePositions_runOps ops st (by rw [h]; rfl)
  refine ⟨?_, hinv, ?_⟩
  · rw [hinv]
    exact (List.nodup_map_iff (fun a b hab => by simpa using hab)).2 (List.nodup_range _)
  · intro env userId showId inp
    obtain ⟨new, h1, h2⟩ := buyTicket_tickets env (runOps st ops) userId showId inp
    refine ⟨new, h1, h2, ?_⟩
    intro t ht u hu
    have htid : t.id ∈ (List.range' (runOps st ops).tickets.length new.length).map Int.ofNat := by
      rw [← h2]; exact List.mem_map_of_mem _ ht
    have huid : u.id ∈ (List.range (runOps st ops).tickets.length).map Int.ofNat := by
      rw [← hinv]; exact List.mem_map_of_mem _ hu
    obtain ⟨i, hi, hi2⟩ := List.mem_map.1 htid
    obtain ⟨j, hj, hj2⟩ := List.mem_map.1 huid
    rw [← hi2, ← hj2]
    have hi' := (List.mem_range'_1.1 hi).1
    have hj' := List.mem_range.1 hj
    simp only [Int.ofNat_eq_coe, Nat.cast_lt]
    omega

/-- The ticket ids after the four operations of the double-booking example. -/
theorem ticket_ids_distinct_and_increasing_witness :
    ((runOps twoShows doubleBookingOps).tickets.map Ticket.id).Nodup ∧
    (runOps twoShows doubleBookingOps).tickets.map Ticket.id = [0, 1, 2] :=
  ⟨(ticket_ids_distinct_and_increasing twoShows doubleBookingOps rfl).1, by decide⟩

/-! ### The text `updateBookedField` leaves -/

theorem updateBookedFrom_digits (n : Int) (ds rest : CStr) (hds : ',' ∉ ds) :
    ∀ cur : Int, updateBookedFrom n (some cur) (ds ++ rest)
      = updateBookedFrom n (some (ds.foldl (fun a c => a * 10 + digitVal c) cur)) rest := by
  induction ds with
  | nil => intro cur; rfl
  | cons d ds ih =>
    intro cur
    simp only [List.mem_cons, not_or] at hds
    have hd : d ≠ ',' := fun e => hds.1 e.symm
    simp only [List.cons_append, updateBookedFrom, if_neg hd, List.foldl_cons]
    exact ih hds.2 _

theorem updateBookedFrom_itoa (n x : Int) (hx : 0 ≤ x) (rest : CStr) :
    updateBookedFrom n none (itoa x ++ rest) = updateBookedFrom n (some x) rest := by
  have hc := comma_not_mem_itoa x
  have hv := seatValue_itoa x hx
  cases h : itoa x with
  | nil => exact absurd h (itoa_ne_nil x)
  | cons d ds =>
    rw [h] at hc hv
    simp only [List.mem_cons, not_or] at hc
    have hd : d ≠ ',' := fun e => hc.1 e.symm
    simp only [List.cons_append, updateBookedFrom, if_neg hd]
    have e : ds.append rest = ds ++ rest := rfl
    rw [e, updateBookedFrom_digits n ds rest hc.2]
    simp only [seatValue, List.foldl_cons] at hv
    rw [hv]

theorem bookedText_cons_cons (a b : Int) (l : List Int) :
    bookedText (a :: b :: l) = itoa a ++ ',' :: bookedText (b :: l) := by
  simp [bookedText, List.intercalate, List.intersperse]

theorem bookedText_singleton (a : Int) : bookedText [a] = itoa a := by
  simp [bookedText, List.intercalate]

/-- The exact text `updateBookedField` leaves for a well-formed field: the comma-separated
text of the kept seats, followed by a comma when the last seat of the field was removed and
a seat is kept. -/
theorem updateBookedField_bookedText (l : List Int) (n : Int) (h : ∀ x ∈ l, 0 ≤ x) :
    updateBookedField (bookedText l) n
      = bookedText (l.filter (fun x => decide (x ≠ n)))
        ++ (if l.getLast? = some n ∧ l.filter (fun x => decide (x ≠ n)) ≠ [] then [',']
            else []) := by
  induction l with
  | nil => rfl
  | cons x l ih =>
    have hx : 0 ≤ x := h x (by simp)
    cases l with
    | nil =>
      unfold updateBookedField
      have := updateBookedFrom_itoa n x hx []
      rw [List.append_nil] at this
      rw [bookedText_singleton, this]
      by_cases hxn : x = n
      · subst hxn; simp [updateBookedFrom, bookedText_nil]
      · have hne : ¬ (some x = some n) := fun e => hxn (Option.some.inj e)
        simp [updateBookedFrom, hxn, bookedText_singleton, hne]
    | cons y l =>
      have ih' := ih (fun z hz => h z (by simp [hz]))
      unfold updateBookedField at ih' ⊢
      rw [bookedText_cons_cons, updateBookedFrom_itoa n x hx]
      simp only [updateBookedFrom, if_true]
      rw [ih']
      have hlast : (x :: y :: l).getLast? = (y :: l).getLast? := by simp [List.getLast?]
      rw [hlast]
      by_cases hxn : x = n
      · subst hxn
        simp
      · have hf : (x :: y :: l).filter (fun z => decide (z ≠ n))
            = x :: (y :: l).filter (fun z => decide (z ≠ n)) := by
          simp [List.filter_cons, hxn]
        rw [hf]
        simp only [ne_eq, hxn, not_false_eq_true, if_true]
        cases hF : (y :: l).filter (fun z => decide (z ≠ n)) with
        | nil =>
          have hall : ∀ z ∈ y :: l, z = n := by
            intro z hz
            by_contra hzn
            have : z ∈ (y :: l).filter (fun z => decide (z ≠ n)) :=
              List.mem_filter.2 ⟨hz, by simpa using hzn⟩
            rw [hF] at this
            simp at this
          have hl : (y :: l).getLast? = some n := by
            have hne : y :: l ≠ [] := by simp
            rw [List.getLast?_eq_getLast _ hne]
            exact congrArg some (hall _ (List.getLast_mem hne))
          simp [hl, bookedText_singleton, bookedText_nil]
        | cons f fs =>
          rw [bookedText_cons_cons]
          simp

/-- C21: removing seat 9 from the well-formed field "2,7,9" leaves "2,7," with a trailing
comma, not the comma-separated text "2,7" of the remaining seats; a later purchase of seat 5
appends to it and writes "2,7,,5". -/
theorem updateBookedField_leaves_trailing_comma :
    bookedText [2, 7, 9] = "2,7,9".toList ∧
    updateBookedField "2,7,9".toList 9 = "2,7,".toList ∧
    bookedText [2, 7] = "2,7".toList ∧
    appendBooked "2,7,".toList 0 [5] "2,7,".toList = "2,7,,5".toList := by
  decide

/-! ### The routines on the data files -/

theorem fgetsAux_line (body rest : CStr) (hb : '\n' ∉ body) :
    ∀ room : Nat, body.length < room →
      fgetsAux room (body ++ '\n' :: rest) = (body ++ ['\n'], rest) := by
  induction body with
  | nil =>
    intro room h
    cases room with
    | zero => omega
    | succ room => simp [fgetsAux]
  | cons c body ih =>
    intro room h
    simp only [List.mem_cons, not_or] at hb
    have hc : c ≠ '\n' := fun e => hb.1 e.symm
    cases room with
    | zero => simp at h
    | succ room =>
      have h' : body.length < room := by simpa using h
      have := ih hb.2 room h'
      simp only [List.cons_append, fgetsAux, if_neg hc]
      rw [show body.append ('\n' :: rest) = body ++ '\n' :: rest from rfl, this]

theorem isLine_split (size : Nat) (l : CStr) (h : IsLine size l) :
    l = l.dropLast ++ ['\n'] ∧ '\n' ∉ l.dropLast ∧ l.dropLast.length + 2 ≤ size := by
  obtain ⟨h1, h2, h3⟩ := h
  have hl : l = l.dropLast ++ ['\n'] := by
    have := List.dropLast_append_getLast? '\n' h1
    exact this.symm
  refine ⟨hl, h2, ?_⟩
  have : l.length = l.dropLast.length + 1 := by
    conv_lhs => rw [hl]
    simp
  omega

theorem fgets_line (size : Nat) (l rest : CStr) (h : IsLine size l) :
    fgets size (l ++ rest) = some (l, rest) := by
  obtain ⟨hl, h2, h3⟩ := isLine_split size l h
  have hne : l ++ rest ≠ [] := by
    rw [hl]; simp
  unfold fgets
  rw [if_neg hne]
  have := fgetsAux_line l.dropLast rest h2 (size - 1) (by omega)
  conv_lhs => rw [hl]
  rw [List.append_assoc, List.singleton_append, this, ← hl]

theorem isLine_of_body (size : Nat) (body : CStr) (hb : '\n' ∉ body)
    (hlen : (body ++ ['\n']).length + 1 ≤ size) : IsLine size (body ++ ['\n']) := by
  refine ⟨by simp, by simpa using hb, hlen⟩

/-- Loading the lines written for records that load back as they were: the records, up to
the bound of the loop. -/
theorem loadLoop_lines {α : Type} (scan : α → CStr → α) (print : α → CStr)
    (slot : Nat → α) (size : Nat) (limit : Option Nat) (xs : List α)
    (hscan : ∀ x ∈ xs, ∀ old : α, scan old (print x) = x)
    (hline : ∀ x ∈ xs, IsLine size (print x)) :
    ∀ fuel n : Nat, ((xs.map print).flatten).length ≤ fuel →
      loadLoop scan slot size limit fuel n ((xs.map print).flatten)
        = match limit with
          | none => xs
          | some m => xs.take (m - n) := by
  induction xs with
  | nil =>
    intro fuel n _
    cases fuel with
    | zero => cases limit <;> simp [loadLoop]
    | succ fuel => cases limit <;> simp [loadLoop, fgets]
  | cons x xs ih =>
    intro fuel n hfuel
    have hx := hline x (by simp)
    have hxs := hscan x (by simp)
    have hpos : 0 < (print x).length := by
      obtain ⟨hl, _, _⟩ := isLine_split size _ hx
      rw [hl]; simp
    simp only [List.map_cons, List.flatten_cons, List.length_append] at hfuel ⊢
    cases fuel with
    | zero => omega
    | succ fuel =>
      have ih' := ih (fun y hy => hscan y (by simp [hy])) (fun y hy => hline y (by simp [hy]))
        fuel (n + 1) (by omega)
      simp only [loadLoop, fgets_line size (print x) _ hx]
      cases limit with
      | none =>
        simp only [underLimit, if_true, hxs] at ih' ⊢
        rw [ih']
      | some m =>
        simp only [underLimit, decide_eq_true_eq] at ih' ⊢
        by_cases hn : n < m
        · rw [if_pos hn, hxs, ih']
          have : m - n = (m - (n + 1)) + 1 := by omega
          rw [this, List.take_succ_cons]
        · rw [if_neg hn]
          have : m - n = 0 := by omega
          rw [this, List.take_zero]

theorem loadRecords_lines {α : Type} (scan : α → CStr → α) (print : α → CStr)
    (slot : Nat → α) (size : Nat) (limit : Option Nat) (hdr : CStr) (xs : List α)
    (hhdr : IsLine size hdr)
    (hscan : ∀ x ∈ xs, ∀ old : α, scan old (print x) = x)
    (hline : ∀ x ∈ xs, IsLine size (print x)) :
    loadRecords scan slot size limit (hdr ++ (xs.map print).flatten)
      = match limit with
        | none => xs
        | some m => xs.take m := by
  unfold loadRecords
  rw [fgets_line size hdr _ hhdr]
  simp only
  have := loadLoop_lines scan print slot size limit xs hscan hline
    ((xs.map print).flatten).length 0 (le_refl _)
  rw [this]
  cases limit <;> simp

theorem newline_not_mem_itoa (n : Int) : '\n' ∉ itoa n := by
  intro hx
  cases n with
  | ofNat m => exact absurd (toDigits_mem m _ hx) (by decide)
  | negSucc m =>
    simp only [itoa, List.mem_cons] at hx
    rcases hx with hx | hx
    · exact absurd hx (by decide)
    · exact absurd (toDigits_mem _ _ hx) (by decide)

theorem isLine_fprintfShow (size : Nat) (s : Show) (h : ShowLoads size s) :
    IsLine size (fprintfShow s) := by
  obtain ⟨h1, h2, h3, h4, _, hb, _, hlen⟩ := h
  have hbody : fprintfShow s = (itoa s.id ++ '|' :: s.singer ++ '|' :: s.date ++ '|' ::
      s.venue ++ '|' :: s.type ++ '|' :: itoa s.price ++ '|' :: itoa s.seats ++ '|' ::
      s.booked) ++ ['\n'] := by
    simp [fprintfShow]
  rw [hbody] at hlen ⊢
  refine isLine_of_body size _ ?_ hlen
  have n1 := newline_not_mem_itoa s.id
  have n2 := newline_not_mem_itoa s.price
  have n3 := newline_not_mem_itoa s.seats
  have hbar : ¬ ('\n' = '|') := by decide
  simp only [List.mem_append, List.mem_cons, not_or]
  exact ⟨⟨⟨⟨⟨⟨⟨n1, hbar, h1.2.2.1⟩, hbar, h2.2.2.1⟩, hbar, h3.2.2.1⟩, hbar, h4.2.2.1⟩,
    hbar, n2⟩, hbar, n3⟩, hbar, hb⟩

theorem sscanfShow_of_loads (size : Nat) (s : Show) (h : ShowLoads size s) (old : Show) :
    sscanfShow old (fprintfShow s) = s := by
  obtain ⟨h1, h2, h3, h4, hne, hb, _, _⟩ := h
  have := sscanfShow_fprintfShow old s ⟨h1.1, h1.2.1⟩ ⟨h2.1, h2.2.1⟩ ⟨h3.1, h3.2.1⟩
    ⟨h4.1, h4.2.1⟩ hb
  rw [if_neg hne] at this
  exact this

/-- The line of a ticket parses back field by field when its text fields are not empty. -/
theorem sscanfTicket_fprintfTicket (old t : Ticket)
    (h1 : t.ticketNumber ≠ [] ∧ '|' ∉ t.ticketNumber)
    (h2 : t.paymentMethod ≠ [] ∧ '|' ∉ t.paymentMethod)
    (h3 : t.paymentAccount ≠ [] ∧ '|' ∉ t.paymentAccount)
    (h4 : t.transactionNumber ≠ [] ∧ '|' ∉ t.transactionNumber) :
    sscanfTicket old (fprintfTicket t) = t := by
  have e0 : fprintfTicket t = itoa t.id ++ ('|' :: (t.ticketNumber ++ '|' ::
      (itoa t.userId ++ ('|' :: (itoa t.showId ++ ('|' :: (itoa t.seatNumber ++ ('|' ::
        (t.paymentMethod ++ '|' :: (t.paymentAccount ++ '|' :: (t.transactionNumber ++
          '|' :: (itoa t.status ++ '\n' :: [])))))))))))) := by
    simp [fprintfTicket]
  have hnl : NoDigitAhead ('\n' :: ([] : CStr)) := by
    intro c hc
    simp only [List.head?_cons, Option.mem_def, Option.some.injEq] at hc
    subst hc; decide
  unfold sscanfTicket
  rw [e0, scanInt_itoa _ _ (noDigitAhead_bar _)]
  simp only
  rw [field_after_bar '|' t.ticketNumber _ h1.1 h1.2]
  simp only
  rw [int_after_bar _ _ (noDigitAhead_bar _)]
  simp only
  rw [int_after_bar _ _ (noDigitAhead_bar _)]
  simp only
  rw [int_after_bar _ _ (noDigitAhead_bar _)]
  simp only
  rw [field_after_bar '|' t.paymentMethod _ h2.1 h2.2]
  simp only
  rw [field_after_bar '|' t.paymentAccount _ h3.1 h3.2]
  simp only
  rw [field_after_bar '|' t.transactionNumber _ h4.1 h4.2]
  simp only
  rw [int_after_bar _ _ hnl]

theorem isLine_fprintfTicket (size : Nat) (t : Ticket) (h : TicketLoads size t) :
    IsLine size (fprintfTicket t) := by
  obtain ⟨h1, h2, h3, h4, hlen⟩ := h
  have hbody : fprintfTicket t = (itoa t.id ++ '|' :: t.ticketNumber ++ '|' :: itoa t.userId
      ++ '|' :: itoa t.showId ++ '|' :: itoa t.seatNumber ++ '|' :: t.paymentMethod ++ '|' ::
      t.paymentAccount ++ '|' :: t.transactionNumber ++ '|' :: itoa t.status) ++ ['\n'] := by
    simp [fprintfTicket]
  rw [hbody] at hlen ⊢
  refine isLine_of_body size _ ?_ hlen
  have n1 := newline_not_mem_itoa t.id
  have n2 := newline_not_mem_itoa t.userId
  have n3 := newline_not_mem_itoa t.showId
  have n4 := newline_not_mem_itoa t.seatNumber
  have n5 := newline_not_mem_itoa t.status
  have hbar : ¬ ('\n' = '|') := by decide
  simp only [List.mem_append, List.mem_cons, not_or]
  exact ⟨⟨⟨⟨⟨⟨⟨⟨n1, hbar, h1.2.2.1⟩, hbar, n2⟩, hbar, n3⟩, hbar, n4⟩, hbar, h2.2.2.1⟩,
    hbar, h3.2.2.1⟩, hbar, h4.2.2.1⟩, hbar, n5⟩

theorem sscanfTicket_of_loads (size : Nat) (t : Ticket) (h : TicketLoads size t)
    (old : Ticket) : sscanfTicket old (fprintfTicket t) = t :=
  sscanfTicket_fprintfTicket old t ⟨h.1.1, h.1.2.1⟩ ⟨h.2.1.1, h.2.1.2.1⟩
    ⟨h.2.2.1.1, h.2.2.1.2.1⟩ ⟨h.2.2.2.1.1, h.2.2.2.1.2.1⟩

theorem isLine_ticketHeader : IsLine 200 ticketHeader := by decide

theorem isLine_mono (size size2 : Nat) (l : CStr) (h : IsLine size l) (hs : size ≤ size2) :
    IsLine size2 l := ⟨h.1, h.2.1, le_trans h.2.2 hs⟩

/-- The ticket file written for at most `MAX_TICKET` records that load back is loaded by
`updateTicketStatus` as these records. -/
theorem loadTickets_saveTickets (slot : Nat → Ticket) (ts : List Ticket)
    (hwf : ∀ t ∈ ts, TicketLoads 200 t) :
    loadRecords sscanfTicket slot 200 (some MAX_TICKET) (saveTickets ts)
      = ts.take MAX_TICKET := by
  unfold saveTickets
  exact loadRecords_lines sscanfTicket fprintfTicket slot 200 (some MAX_TICKET) ticketHeader ts
    isLine_ticketHeader (fun t ht old => sscanfTicket_of_loads 200 t (hwf t ht) old)
    (fun t ht => isLine_fprintfTicket 200 t (hwf t ht))

theorem loadShows_of_loads (slot : Nat → Show) (size : Nat) (hdr : CStr) (shows : List Show)
    (hhdr : IsLine size hdr) (hwf : ∀ x ∈ shows, ShowLoads size x) :
    loadRecords sscanfShow slot size none (hdr ++ (shows.map fprintfShow).flatten) = shows :=
  loadRecords_lines sscanfShow fprintfShow slot size none hdr shows hhdr
    (fun x hx old => sscanfShow_of_loads size x (hwf x hx) old)
    (fun x hx => isLine_fprintfShow size x (hwf x hx))

theorem buyLoop_error_ne (env : Env) (tickets : List Ticket) (userId showId : Int)
    (inp : PurchaseInput) (shows : List Show) (o : Outcome)
    (h : buyLoop env tickets userId showId inp shows = .error o) : o ≠ Outcome.purchased := by
  cases hf : shows.find? (fun x => decide (x.id = showId)) with
  | none =>
    rw [buyLoop_none env tickets userId showId inp shows hf] at h
    simp at h
  | some s =>
    obtain ⟨pre, post, _, _, _, h4⟩ := buyLoop_some env tickets userId showId inp shows s hf
    rw [h4] at h
    rcases hp : purchaseOnShow env tickets userId showId inp s with o1 | ⟨t1, s1⟩
    · rw [hp] at h
      simp only [Except.error.injEq] at h
      subst h
      exact (purchaseOnShow_error env tickets userId showId inp s o1 hp).1
    · rw [hp] at h
      simp at h

/-- The routine on the files follows the loop on the loaded arrays: same outcome, and after
a purchase the files are the saved forms of the arrays. -/
theorem buyTicketFiles_eq (env : Env) (ticketSlot : Nat → Ticket) (showSlot : Nat → Show)
    (ticketFile showFile : CStr) (userId showId : Int) (inp : PurchaseInput) :
    (buyTicketFiles env ticketSlot showSlot ticketFile showFile userId showId inp).1
      = (buyTicket env
          { tickets := loadRecords sscanfTicket ticketSlot (MAX_LENGTH * 3) none ticketFile,
            shows := loadRecords sscanfShow showSlot (MAX_LENGTH * 3) none showFile }
          userId showId inp).1 ∧
    ((buyTicketFiles env ticketSlot showSlot ticketFile showFile userId showId inp).1
        = Outcome.purchased →
      (buyTicketFiles env ticketSlot showSlot ticketFile showFile userId showId inp).2
        = (saveTickets (buyTicket env
            { tickets := loadRecords sscanfTicket ticketSlot (MAX_LENGTH * 3) none ticketFile,
              shows := loadRecords sscanfShow showSlot (MAX_LENGTH * 3) none showFile }
            userId showId inp).2.tickets,
           buyTicketShowFile (buyTicket env
            { tickets := loadRecords sscanfTicket ticketSlot (MAX_LENGTH * 3) none ticketFile,
              shows := loadRecords sscanfShow showSlot (MAX_LENGTH * 3) none showFile }
            userId showId inp).2.shows)) := by
  unfold buyTicketFiles buyTicket
  simp only
  rcases hbl : buyLoop env
      (loadRecords sscanfTicket ticketSlot (MAX_LENGTH * 3) none ticketFile)
      userId showId inp (loadRecords sscanfShow showSlot (MAX_LENGTH * 3) none showFile)
    with o | ⟨o, t1, s1⟩
  · refine ⟨rfl, ?_⟩
    intro h
    exact absurd h (buyLoop_error_ne _ _ _ _ _ _ o hbl)
  · exact ⟨rfl, fun _ => rfl⟩

/-- C2 (amended): let the ticket file and the show file each be a header line followed by
the lines of records that load back as they were saved through `line[MAX_LENGTH * 3]` (text
fields non-empty, without `|`, within their arrays; the booked field of every show
non-empty), within the arrays of the caller (at most `MAX_SHOW` shows; the tickets with the
new ones at most `MENU_MAX_TICKET`).  If the booked list of the first show `s` with id
`showId` has all members in `[1, seats]` and at most `seats` distinct members, the request
has all its seat numbers in `[1, seats]`, the updated booked text fits `updatedBooked` and
`buyTicket` accepts the purchase, then the show file is rewritten with the same records
except that the booked field of `s` is the old list followed by the request; that list again
has all members in `[1, seats]` and at most `seats` distinct members, and a duplicate-free
list stays duplicate-free with at most `seats` members.  The ticket file is rewritten with
the earlier tickets followed by one ticket for each requested seat.  This holds whatever
the arrays of the caller held before the call. -/
theorem buyTicketFiles_keeps_seat_bounds (env : Env) (ticketSlot : Nat → Ticket)
    (showSlot : Nat → Show) (thdr hdr : CStr) (ts : List Ticket) (shows : List Show)
    (userId showId : Int) (inp : PurchaseInput) (s : Show)
    (hthdr : IsLine (MAX_LENGTH * 3) thdr)
    (htloads : ∀ t ∈ ts, TicketLoads (MAX_LENGTH * 3) t)
    (htcap : ts.length + inp.seats.length ≤ MENU_MAX_TICKET)
    (hhdr : IsLine (MAX_LENGTH * 3) hdr)
    (hloads : ∀ x ∈ shows, ShowLoads (MAX_LENGTH * 3) x)
    (hscap : shows.length ≤ MAX_SHOW)
    (hfind : shows.find? (fun x => decide (x.id = showId)) = some s)
    (hrange : ∀ tok ∈ strtokAll s.booked, ∃ n : Int, 1 ≤ n ∧ n ≤ s.seats ∧ tok = itoa n)
    (hcount : (((strtokAll s.booked).dedup.length : Nat) : Int) ≤ s.seats)
    (hreq : ∀ n ∈ inp.seats, 1 ≤ n ∧ n ≤ s.seats)
    (hfit : (appendBooked s.booked 0 inp.seats s.booked).length < MAX_LENGTH)
    (hacc : (buyTicketFiles env ticketSlot showSlot
        (thdr ++ (ts.map fprintfTicket).flatten)
        (hdr ++ (shows.map fprintfShow).flatten) userId showId inp).1 = Outcome.purchased) :
    ∃ (pre post : List Show) (b : CStr),
      shows = pre ++ s :: post ∧ (∀ x ∈ pre, x.id ≠ showId) ∧
      (buyTicketFiles env ticketSlot showSlot
          (thdr ++ (ts.map fprintfTicket).flatten)
          (hdr ++ (shows.map fprintfShow).flatten) userId showId inp).2.2
        = buyTicketShowFile (pre ++ { s with booked := b } :: post) ∧
      (pre ++ { s with booked := b } :: post).length ≤ MAX_SHOW ∧
      b.length < MAX_LENGTH ∧
      strtokAll b = strtokAll s.booked ++ inp.seats.map itoa ∧
      (∀ tok ∈ strtokAll b, ∃ n : Int, 1 ≤ n ∧ n ≤ s.seats ∧ tok = itoa n) ∧
      (((strtokAll b).dedup.length : Nat) : Int) ≤ s.seats ∧
      ((strtokAll s.booked).Nodup →
        (strtokAll b).Nodup ∧ ((countBookedSeats b : Nat) : Int) ≤ s.seats) ∧
      ∃ newTickets : List Ticket,
        (buyTicketFiles env ticketSlot showSlot
            (thdr ++ (ts.map fprintfTicket).flatten)
            (hdr ++ (shows.map fprintfShow).flatten) userId showId inp).2.1
          = saveTickets (ts ++ newTickets) ∧
        newTickets.map Ticket.seatNumber = inp.seats ∧
        (ts ++ newTickets).length ≤ MENU_MAX_TICKET := by
  obtain ⟨e1, e2⟩ := buyTicketFiles_eq env ticketSlot showSlot
    (thdr ++ (ts.map fprintfTicket).flatten)
    (hdr ++ (shows.map fprintfShow).flatten) userId showId inp
  have hload := loadShows_of_loads showSlot (MAX_LENGTH * 3) hdr shows hhdr hloads
  have hloadT : loadRecords sscanfTicket ticketSlot (MAX_LENGTH * 3) none
      (thdr ++ (ts.map fprintfTicket).flatten) = ts :=
    loadRecords_lines sscanfTicket fprintfTicket ticketSlot (MAX_LENGTH * 3) none thdr ts hthdr
      (fun t ht old => sscanfTicket_of_loads (MAX_LENGTH * 3) t (htloads t ht) old)
      (fun t ht => isLine_fprintfTicket (MAX_LENGTH * 3) t (htloads t ht))
  rw [hload, hloadT] at e1 e2
  have hacc' := hacc
  rw [e1] at hacc'
  obtain ⟨pre, post, s', pm, h0, h1, h2, h3, h4, h5, _, h7⟩ :=
    buyTicket_purchased_inv env _ userId showId inp hacc'
  simp only at h0 h1
  rw [hfind] at h0
  simp only [Option.some.injEq] at h0
  subst h0
  have htok : strtokAll (appendBooked s.booked 0 inp.seats s.booked)
      = strtokAll s.booked ++ inp.seats.map itoa := by
    refine appendBooked_tokens s.booked inp.seats 0 s.booked h5 ?_
    cases hb : s.booked with
    | nil => exact Or.inr rfl
    | cons c cs => exact Or.inl (Or.inl (by simp))
  have hr : ∀ tok ∈ strtokAll (appendBooked s.booked 0 inp.seats s.booked),
      ∃ n : Int, 1 ≤ n ∧ n ≤ s.seats ∧ tok = itoa n := by
    intro tok htk
    rw [htok] at htk
    rcases List.mem_append.1 htk with htk | htk
    · exact hrange tok htk
    · obtain ⟨n, hn, rfl⟩ := List.mem_map.1 htk
      exact ⟨n, (hreq n hn).1, (hreq n hn).2, rfl⟩
  have hs0 : 0 ≤ s.seats := le_trans (Int.ofNat_nonneg _) hcount
  have hc := tokens_count_le _ s.seats hs0 hr
  have hseat := (issueTickets_spec env.rand userId showId pm inp.payment_account
    (generateTransactionNumber env.rand (9 * inp.seats.length) env.hour env.minute env.second 10)
    inp.seats ts.length 0).1
  refine ⟨pre, post, appendBooked s.booked 0 inp.seats s.booked, h1, h2, ?_, ?_, hfit, htok, hr,
    hc, ?_, ⟨_, ?_, hseat, ?_⟩⟩
  · rw [e2 hacc, h7]
  · have hl : (pre ++ { s with booked := appendBooked s.booked 0 inp.seats s.booked }
        :: post).length = shows.length := by
      rw [h1]; simp
    rw [hl]; exact hscap
  rotate_left
  · rw [e2 hacc, h7]
  · have hl := congrArg List.length hseat
    rw [List.length_map] at hl
    rw [List.length_append, hl]
    exact htcap
  · intro hnd
    have hnd' : (strtokAll (appendBooked s.booked 0 inp.seats s.booked)).Nodup := by
      rw [htok, List.nodup_append]
      refine ⟨hnd, (List.nodup_map_iff itoa_injective).2 h4, ?_⟩
      intro tok htk htk2
      obtain ⟨n, hn, rfl⟩ := List.mem_map.1 htk2
      have hinf := strtokAll_infix _ _ htk
      have := h5 n hn
      rw [strstr_false_iff] at this
      exact this hinf
    refine ⟨hnd', ?_⟩
    unfold countBookedSeats
    rw [← List.dedup_eq_self.2 hnd']
    exact hc

/-- C2 (amended) at a concrete input: seats 1 and 5 bought on a 5-seat show whose booked
field is "2", with one earlier ticket in the ticket file and arrays that held other
records before the call. -/
theorem buyTicketFiles_keeps_seat_bounds_witness :
    ∃ (pre post : List Show) (b : CStr),
      [demoShow 1 5 ['2']] = pre ++ demoShow 1 5 ['2'] :: post ∧ (∀ x ∈ pre, x.id ≠ 1) ∧
      (buyTicketFiles demoEnv (ticketSlots zeroTicket) (showSlots (demoShow 7 9 ['4']))
          (ticketHeader ++ ([cancelledTicket 0].map fprintfTicket).flatten)
          (updateBookedFieldInFileHeader
            ++ ([demoShow 1 5 ['2']].map fprintfShow).flatten) 9 1 (demoInput [1, 5])).2.2
        = buyTicketShowFile (pre ++ { demoShow 1 5 ['2'] with booked := b } :: post) ∧
      (pre ++ { demoShow 1 5 ['2'] with booked := b } :: post).length ≤ MAX_SHOW ∧
      b.length < MAX_LENGTH ∧
      strtokAll b = strtokAll (demoShow 1 5 ['2']).booked ++ (demoInput [1, 5]).seats.map itoa ∧
      (∀ tok ∈ strtokAll b, ∃ n : Int, 1 ≤ n ∧ n ≤ (demoShow 1 5 ['2']).seats ∧ tok = itoa n) ∧
      (((strtokAll b).dedup.length : Nat) : Int) ≤ (demoShow 1 5 ['2']).seats ∧
      ((strtokAll (demoShow 1 5 ['2']).booked).Nodup →
        (strtokAll b).Nodup ∧ ((countBookedSeats b : Nat) : Int) ≤ (demoShow 1 5 ['2']).seats) ∧
      ∃ newTickets : List Ticket,
        (buyTicketFiles demoEnv (ticketSlots zeroTicket) (showSlots (demoShow 7 9 ['4']))
            (ticketHeader ++ ([cancelledTicket 0].map fprintfTicket).flatten)
            (updateBookedFieldInFileHeader
              ++ ([demoShow 1 5 ['2']].map fprintfShow).flatten) 9 1 (demoInput [1, 5])).2.1
          = saveTickets ([cancelledTicket 0] ++ newTickets) ∧
        newTickets.map Ticket.seatNumber = (demoInput [1, 5]).seats ∧
        ([cancelledTicket 0] ++ newTickets).length ≤ MENU_MAX_TICKET :=
  buyTicketFiles_keeps_seat_bounds demoEnv (ticketSlots zeroTicket)
    (showSlots (demoShow 7 9 ['4'])) ticketHeader updateBookedFieldInFileHeader
    [cancelledTicket 0] [demoShow 1 5 ['2']] 9 1 (demoInput [1, 5]) (demoShow 1 5 ['2'])
    (by decide) (by decide) (by decide) (by decide) (by decide) (by decide) (by decide)
    (by
      intro tok htok
      have : tok = itoa 2 := by
        have h2 : strtokAll (demoShow 1 5 ['2']).booked = [itoa 2] := by decide
        rw [h2] at htok
        simpa using htok
      exact ⟨2, by decide, by decide, this⟩)
    (by decide)
    (by
      intro n hn
      have : n = 1 ∨ n = 5 := by simpa [demoInput] using hn
      rcases this with rfl | rfl <;> decide)
    (by decide) (by decide)

/-- C2, counterexample: the show file holds one show with 10 seats and the booked field "5"
(a record that loads back as it was saved), the ticket file only its header.  The request
[11] is accepted: a ticket for seat 11 is written and the show file is rewritten with the
booked field "5,11". -/
theorem buyTicketFiles_books_seat_out_of_range :
    ShowLoads (MAX_LENGTH * 3) (demoShow 1 10 ['5']) ∧
    (demoShow 1 10 ['5']).seats = 10 ∧
    buyTicketFiles demoEnv (ticketSlots zeroTicket) (showSlots zeroShow) ticketHeader
        (showFileOf [demoShow 1 10 ['5']]) 9 1 (demoInput [11])
      = (Outcome.purchased,
         saveTickets (issueTickets demoEnv.rand 9 1 ['b', 'K', 'a', 's', 'h'] ['0', '1', '7']
            ['U', '1', '8', '0', '9', '0', '5', '3', '0'] 0 0 [11]),
         buyTicketShowFile [demoShow 1 10 ['5', ',', '1', '1']]) ∧
    seatBooked ['5', ',', '1', '1'] 11 := by
  decide

/-- C6: the show file holds show 1 (5 seats) and show 2 (8 seats), both with an empty booked
field, the ticket file holds only its header, and the elements of the array `shows` of the
caller hold the booked text "4" from before.  The purchase of seats 1 and 2 of show 1 by
user 9 is accepted, and the show file is rewritten with the booked field "4,1,2" for show 1
and "4" for show 2. -/
theorem buyTicketFiles_empty_booked_field :
    showFileOf [demoShow 1 5 [], demoShow 2 8 []]
      = ("id|singer|date|venue|type|price|seats|booked\n".toList
          ++ "1|Ayub|15,8,2030|Dhaka|Rock|500|5|\n".toList
          ++ "2|Ayub|15,8,2030|Dhaka|Rock|500|8|\n".toList) ∧
    (buyTicketFiles demoEnv (ticketSlots zeroTicket) (showSlots (demoShow 7 9 ['4']))
        ticketHeader (showFileOf [demoShow 1 5 [], demoShow 2 8 []]) 9 1 (demoInput [1, 2])).1
      = Outcome.purchased ∧
    (buyTicketFiles demoEnv (ticketSlots zeroTicket) (showSlots (demoShow 7 9 ['4']))
        ticketHeader (showFileOf [demoShow 1 5 [], demoShow 2 8 []]) 9 1 (demoInput [1, 2])).2.2
      = ("id|singer|date|type|price|seats|booked\n".toList
          ++ "1|Ayub|15,8,2030|Dhaka|Rock|500|5|4,1,2\n".toList
          ++ "2|Ayub|15,8,2030|Dhaka|Rock|500|8|4\n".toList) := by
  decide

/-- C16: the show file holds show 1 (5 seats, empty booked field) and show 3 (8 seats, booked
field "7"), both dated 15,8,2030, and the elements of the local array `shows` hold the
booked text "4,6" from before.  On 1,1,2030 both shows are listed, show 1 with 3 available
seats (5 minus the two tokens left in the array) and show 3 with 7. -/
theorem viewUpcomingShowsOnFile_empty_booked_field :
    showFileOf [demoShow 1 5 [], demoShow 3 8 ['7']]
      = ("id|singer|date|venue|type|price|seats|booked\n".toList
          ++ "1|Ayub|15,8,2030|Dhaka|Rock|500|5|\n".toList
          ++ "3|Ayub|15,8,2030|Dhaka|Rock|500|8|7\n".toList) ∧
    ((viewUpcomingShowsOnFile (showSlots (demoShow 7 9 ['4', ',', '6']))
        (showFileOf [demoShow 1 5 [], demoShow 3 8 ['7']])
        (1, 1, 2030) (0, 0, 0) true false []).1.map
      fun e => (e.serial, e.shown.id, e.shown.seats, e.availableSeats))
      = [(1, 1, 5, 3), (2, 3, 8, 7)] := by
  decide

set_option maxRecDepth 100000 in
/-- C15: starting from a ticket file that holds only its header, user 9 buys seat 3 of
show 1 and enters an account number of 199 characters: the ticket written has id 0 and a
record line of more than 199 characters.  The cancellation `updateTicketStatus( 0, 0 )`
reads that line through `line[200]` in two pieces and rewrites the file with one record for
each piece; loaded again, the ticket file holds two tickets, both with id 0. -/
theorem ticket_ids_repeat_after_long_account :
    (buyTicketFiles demoEnv (ticketSlots zeroTicket) (showSlots zeroShow) ticketHeader
        (showFileOf [demoShow 1 5 ['9']]) 9 1 longAccountInput).1 = Outcome.purchased ∧
    (buyTicketFiles demoEnv (ticketSlots zeroTicket) (showSlots zeroShow) ticketHeader
        (showFileOf [demoShow 1 5 ['9']]) 9 1 longAccountInput).2.1
      = saveTickets [{ id := 0, ticketNumber := "DKR41852H".toList, userId := 9, showId := 1,
                       seatNumber := 3, paymentMethod := "bKash".toList,
                       paymentAccount := List.replicate 199 '0',
                       transactionNumber := "U18090530".toList, status := 1 }] ∧
    (loadRecords sscanfTicket (ticketSlots zeroTicket) (MAX_LENGTH * 3) none
      (updateTicketStatusFiles (ticketSlots zeroTicket) (showSlots zeroShow)
        (buyTicketFiles demoEnv (ticketSlots zeroTicket) (showSlots zeroShow) ticketHeader
          (showFileOf [demoShow 1 5 ['9']]) 9 1 longAccountInput).2.1
        (buyTicketFiles demoEnv (ticketSlots zeroTicket) (showSlots zeroShow) ticketHeader
          (showFileOf [demoShow 1 5 ['9']]) 9 1 longAccountInput).2.2 0 0).2.1).map Ticket.id
      = [0, 0] := by
  decide

theorem cancelLoopOnFile_tickets (showSlot : Nat → Show) (ticketId newStatus : Int)
    (tickets : List Ticket) : ∀ (showFile : CStr) (shows : List Show),
    (cancelLoopOnFile showSlot ticketId newStatus tickets showFile).1
      = (cancelLoop ticketId newStatus tickets shows).1 ∧
    (cancelLoopOnFile showSlot ticketId newStatus tickets showFile).2.1
      = (cancelLoop ticketId newStatus tickets shows).2.1 := by
  induction tickets with
  | nil => intro _ _; exact ⟨rfl, rfl⟩
  | cons t rest ih =>
    intro showFile shows
    simp only [cancelLoopOnFile, cancelLoop]
    split
    · split
      · exact ⟨rfl, rfl⟩
      · obtain ⟨h1, h2⟩ := ih
          (updateBookedFieldInFileOnFile showSlot showFile t.showId t.seatNumber)
          (updateBookedFieldInFile shows t.showId t.seatNumber)
        exact ⟨h1, by simp only [h2]⟩
    · obtain ⟨h1, h2⟩ := ih showFile shows
      exact ⟨h1, by simp only [h2]⟩

theorem cancelLoopOnFile_absent (showSlot : Nat → Show) (ticketId newStatus : Int)
    (tickets : List Ticket) : ∀ showFile : CStr, (∀ t ∈ tickets, t.id ≠ ticketId) →
      cancelLoopOnFile showSlot ticketId newStatus tickets showFile
        = (false, tickets, showFile) := by
  induction tickets with
  | nil => intro _ _; rfl
  | cons a rest ih =>
    intro showFile h
    have ha : ¬ a.id = ticketId := h a (by simp)
    simp only [cancelLoopOnFile, if_neg ha, ih showFile (fun t ht => h t (by simp [ht]))]

theorem cancelLoopOnFile_cancelled (showSlot : Nat → Show) (ticketId newStatus : Int)
    (tickets : List Ticket) :
    ∀ (showFile : CStr) (t : Ticket), (tickets.map Ticket.id).Nodup → t ∈ tickets →
      t.id = ticketId → t.status = 0 →
      cancelLoopOnFile showSlot ticketId newStatus tickets showFile
        = (true, tickets, showFile) := by
  induction tickets with
  | nil => intro _ t _ ht; simp at ht
  | cons a rest ih =>
    intro showFile t hn ht hid hst
    simp only [List.map_cons, List.nodup_cons] at hn
    by_cases ha : a.id = ticketId
    · have hta : t = a := by
        rcases List.mem_cons.1 ht with h | h
        · exact h
        · exfalso
          apply hn.1
          rw [ha, ← hid]
          exact List.mem_map_of_mem _ h
      subst hta
      simp only [cancelLoopOnFile, if_pos ha, if_pos hst]
    · have htr : t ∈ rest := by
        rcases List.mem_cons.1 ht with h | h
        · subst h; exact absurd hid ha
        · exact h
      simp only [cancelLoopOnFile, if_neg ha, ih showFile t hn.2 htr hid hst]

theorem itoa_length_pos (n : Int) : 1 ≤ (itoa n).length := by
  cases h : itoa n with
  | nil => exact absurd h (itoa_ne_nil n)
  | cons c cs => simp

theorem ticketLoads_cancelled (size : Nat) (t : Ticket) (h : TicketLoads size t) :
    TicketLoads size { t with status := 0 } := by
  obtain ⟨h1, h2, h3, h4, hlen⟩ := h
  refine ⟨h1, h2, h3, h4, ?_⟩
  have hpos := itoa_length_pos t.status
  have h0 : (itoa 0).length = 1 := by decide
  simp only [fprintfTicket, List.length_append, List.length_cons, List.length_nil] at hlen ⊢
  omega

theorem forall₂_loads (ticketId : Int) (l1 l2 : List Ticket)
    (h : List.Forall₂
      (fun a b => b = a ∨ (a.id = ticketId ∧ a.status ≠ 0 ∧ b = { a with status := 0 }))
      l1 l2) (hwf : ∀ t ∈ l1, TicketLoads 200 t) : ∀ t ∈ l2, TicketLoads 200 t := by
  induction h with
  | nil => intro t ht; simp at ht
  | cons hab _ ih =>
    intro t ht
    rcases List.mem_cons.1 ht with ht | ht
    · subst ht
      rcases hab with h | ⟨_, _, h⟩
      · rw [h]; exact hwf _ (by simp)
      · rw [h]; exact ticketLoads_cancelled 200 _ (hwf _ (by simp))
    · exact ih (fun u hu => hwf u (by simp [hu])) t ht

theorem updateTicketStatusFiles_of_loads (ticketSlot : Nat → Ticket) (showSlot : Nat → Show)
    (ts : List Ticket) (showFile : CStr) (ticketId newStatus : Int)
    (hwf : ∀ t ∈ ts, TicketLoads 200 t) (hlen : ts.length ≤ MAX_TICKET) :
    updateTicketStatusFiles ticketSlot showSlot (saveTickets ts) showFile ticketId newStatus
      = ((cancelLoopOnFile showSlot ticketId newStatus ts showFile).1,
         saveTickets (cancelLoopOnFile showSlot ticketId newStatus ts showFile).2.1,
         (cancelLoopOnFile showSlot ticketId newStatus ts showFile).2.2) := by
  unfold updateTicketStatusFiles
  rw [loadTickets_saveTickets ticketSlot ts hwf, List.take_of_length_le hlen]

/-- C8 (amended): let the ticket file be as `updateTicketStatus` writes it, with at most
`MAX_TICKET` records that load back as they were saved through `line[200]` (ticket number,
payment method, payment account and transaction number non-empty and without `|`, the line
within the buffer) and pairwise distinct ids.  For a ticket `t` of it whose status is 0,
`updateTicketStatus( t.id, 0 )` prints "Ticket is already canceled" and leaves the ticket
file and the show file as they were; and for every ticket id a second cancellation leaves
both files as the first one left them.  This holds whatever the local arrays held before
the calls. -/
theorem updateTicketStatusFiles_of_cancelled (ticketSlot : Nat → Ticket)
    (showSlot : Nat → Show) (ts : List Ticket) (showFile : CStr) (t : Ticket)
    (hwf : ∀ x ∈ ts, TicketLoads 200 x) (hlen : ts.length ≤ MAX_TICKET)
    (hids : (ts.map Ticket.id).Nodup) (ht : t ∈ ts) (hst : t.status = 0) :
    updateTicketStatusFiles ticketSlot showSlot (saveTickets ts) showFile t.id 0
      = (true, saveTickets ts, showFile) ∧
    ∀ (ticketId : Int) (ticketSlot2 : Nat → Ticket) (showSlot2 : Nat → Show),
      (updateTicketStatusFiles ticketSlot2 showSlot2
        (updateTicketStatusFiles ticketSlot showSlot (saveTickets ts) showFile ticketId 0).2.1
        (updateTicketStatusFiles ticketSlot showSlot (saveTickets ts) showFile ticketId 0).2.2
        ticketId 0).2
      = (updateTicketStatusFiles ticketSlot showSlot (saveTickets ts) showFile ticketId 0).2 := by
  constructor
  · rw [updateTicketStatusFiles_of_loads ticketSlot showSlot ts showFile t.id 0 hwf hlen,
      cancelLoopOnFile_cancelled showSlot t.id 0 ts showFile t hids ht rfl hst]
  · intro ticketId ticketSlot2 showSlot2
    rw [updateTicketStatusFiles_of_loads ticketSlot showSlot ts showFile ticketId 0 hwf hlen]
    simp only
    obtain ⟨_, e2⟩ := cancelLoopOnFile_tickets showSlot ticketId 0 ts showFile []
    obtain ⟨h1, h2⟩ := cancelLoop_zero_after ticketId ts [] hids
    have hfr := cancelLoop_frame ticketId 0 ts []
    rw [← e2] at h1 h2 hfr
    have hwf2 := forall₂_loads ticketId _ _ hfr hwf
    have hlen2 : (cancelLoopOnFile showSlot ticketId 0 ts showFile).2.1.length ≤ MAX_TICKET := by
      rw [← hfr.length_eq]; exact hlen
    rw [updateTicketStatusFiles_of_loads ticketSlot2 showSlot2 _ _ ticketId 0 hwf2 hlen2]
    by_cases hex : ∃ u ∈ (cancelLoopOnFile showSlot ticketId 0 ts showFile).2.1, u.id = ticketId
    · obtain ⟨u, hu, huid⟩ := hex
      rw [cancelLoopOnFile_cancelled showSlot2 ticketId 0 _ _ u (by rw [h1]; exact hids) hu huid
        (h2 u hu huid)]
    · rw [cancelLoopOnFile_absent showSlot2 ticketId 0 _ _ (fun u hu hid => hex ⟨u, hu, hid⟩)]

/-- C9 (amended): let the ticket file be as `updateTicketStatus` writes it, with at most
`MAX_TICKET` records that load back as they were saved through `line[200]`.  Then
`updateTicketStatus( ticketId, newStatus )` rewrites the ticket file with the same number of
records in the same order, each one either unchanged or, when its id is `ticketId` and its
status was not 0, changed in its status field only.  This holds whatever the local arrays
held before the call. -/
theorem updateTicketStatusFiles_frame (ticketSlot : Nat → Ticket) (showSlot : Nat → Show)
    (ts : List Ticket) (showFile : CStr) (ticketId newStatus : Int)
    (hwf : ∀ x ∈ ts, TicketLoads 200 x) (hlen : ts.length ≤ MAX_TICKET) :
    ∃ ts2 : List Ticket,
      (updateTicketStatusFiles ticketSlot showSlot (saveTickets ts) showFile
        ticketId newStatus).2.1 = saveTickets ts2 ∧
      List.Forall₂
        (fun a b => b = a ∨ (a.id = ticketId ∧ a.status ≠ 0 ∧ b = { a with status := newStatus }))
        ts ts2 := by
  rw [updateTicketStatusFiles_of_loads ticketSlot showSlot ts showFile ticketId newStatus
    hwf hlen]
  refine ⟨_, rfl, ?_⟩
  rw [(cancelLoopOnFile_tickets showSlot ticketId newStatus ts showFile []).2]
  exact cancelLoop_frame ticketId newStatus ts []

theorem ticketLoads_cancelledTicket (i : Nat) (h : i < 1000) :
    TicketLoads 200 (cancelledTicket i) := by
  have hlen : (itoa (i : Int)).length ≤ 3 :=
    Nat.toDigitsCore_length 10 (by decide) (i + 1) i 3 (by simpa using h) (by decide)
  refine ⟨by simp only [cancelledTicket]; decide, by simp only [cancelledTicket]; decide,
    by simp only [cancelledTicket]; decide, by simp only [cancelledTicket]; decide, ?_⟩
  have h0 : (itoa 0).length = 1 := by decide
  have h9 : (itoa 9).length = 1 := by decide
  have h1 : (itoa 1).length = 1 := by decide
  simp only [fprintfTicket, cancelledTicket, List.length_append, List.length_cons,
    List.length_nil, Nat.cast_ofNat] at hlen ⊢
  omega

theorem bigLedger_loads : ∀ t ∈ bigLedger.tickets, TicketLoads 200 t := by
  intro t ht
  obtain ⟨i, hi, rfl⟩ := List.mem_map.1 ht
  exact ticketLoads_cancelledTicket i (by have := List.mem_range.1 hi; omega)

theorem bigLedger_split :
    saveTickets bigLedger.tickets
      = saveTickets ((List.range 200).map cancelledTicket) ++ fprintfTicket (cancelledTicket 200)
    := by
  have : bigLedger.tickets = (List.range 200).map cancelledTicket ++ [cancelledTicket 200] := by
    have h201 : List.range 201 = List.range 200 ++ [200] := List.range_succ 200
    simp only [bigLedger, h201, List.map_append, List.map_cons, List.map_nil]
  rw [this]
  simp [saveTickets]

/-- C8, counterexample: the ticket file holds 201 cancelled tickets with the distinct ids
0..200, each record loading back as it was saved.  The cancellation of ticket 200 prints
nothing about an already cancelled ticket, and the ticket file is rewritten with the first
200 records only: the record of ticket 200 is gone. -/
theorem updateTicketStatusFiles_beyond_capacity_unreported :
    (bigLedger.tickets.map Ticket.id).Nodup ∧
    (∀ t ∈ bigLedger.tickets, TicketLoads 200 t) ∧
    cancelledTicket 200 ∈ bigLedger.tickets ∧ (cancelledTicket 200).status = 0 ∧
    updateTicketStatusFiles (ticketSlots zeroTicket) (showSlots zeroShow)
        (saveTickets bigLedger.tickets) (showFileOf []) (cancelledTicket 200).id 0
      = (false, saveTickets ((List.range 200).map cancelledTicket), showFileOf []) ∧
    saveTickets bigLedger.tickets
      = saveTickets ((List.range 200).map cancelledTicket)
          ++ fprintfTicket (cancelledTicket 200) := by
  have habs : ∀ t ∈ (List.range 200).map cancelledTicket, t.id ≠ (cancelledTicket 200).id := by
    intro t ht
    obtain ⟨i, hi, rfl⟩ := List.mem_map.1 ht
    have hi' : i < 200 := List.mem_range.1 hi
    simp only [cancelledTicket]
    omega
  refine ⟨?_, bigLedger_loads, ?_, rfl, ?_, bigLedger_split⟩
  · simp only [bigLedger, List.map_map]
    refine (List.nodup_map_iff ?_).2 (List.nodup_range 201)
    intro a b h
    simpa [cancelledTicket] using h
  · exact List.mem_map.2 ⟨200, List.mem_range.2 (by decide), rfl⟩
  · unfold updateTicketStatusFiles
    rw [loadTickets_saveTickets _ _ bigLedger_loads, bigLedger_take,
      cancelLoopOnFile_absent _ _ _ _ _ habs]

/-- C9, counterexample: a ticket file of 201 records that load back as they were saved is
rewritten by `updateTicketStatus( 0, 0 )` with its first 200 records. -/
theorem updateTicketStatusFiles_beyond_capacity_drops_record :
    bigLedger.tickets.length = 201 ∧
    (∀ t ∈ bigLedger.tickets, TicketLoads 200 t) ∧
    (updateTicketStatusFiles (ticketSlots zeroTicket) (showSlots zeroShow)
        (saveTickets bigLedger.tickets) (showFileOf []) 0 0).2.1
      = saveTickets ((List.range 200).map cancelledTicket) ∧
    ((List.range 200).map cancelledTicket).length = 200 ∧
    saveTickets bigLedger.tickets
      = saveTickets ((List.range 200).map cancelledTicket)
          ++ fprintfTicket (cancelledTicket 200) := by
  refine ⟨by simp [bigLedger], bigLedger_loads, ?_, by simp, bigLedger_split⟩
  unfold updateTicketStatusFiles
  rw [loadTickets_saveTickets _ _ bigLedger_loads, bigLedger_take]
  have hn : (((List.range 200).map cancelledTicket).map Ticket.id).Nodup := by
    simp only [List.map_map]
    refine (List.nodup_map_iff ?_).2 (List.nodup_range 200)
    intro a b h
    simpa [cancelledTicket] using h
  rw [cancelLoopOnFile_cancelled _ 0 0 _ _ (cancelledTicket 0) hn
    (List.mem_map.2 ⟨0, List.mem_range.2 (by decide), rfl⟩) rfl rfl]

/-- C8 (amended) at a ticket file of two cancelled tickets: cancelling ticket 1, and
cancelling it again with other content in the local arrays. -/
theorem updateTicketStatusFiles_of_cancelled_witness :
    updateTicketStatusFiles (ticketSlots zeroTicket) (showSlots zeroShow)
        (saveTickets cancelledPair.tickets) (showFileOf cancelledPair.shows)
        (cancelledTicket 1).id 0
      = (true, saveTickets cancelledPair.tickets, showFileOf cancelledPair.shows) ∧
    (updateTicketStatusFiles (ticketSlots (cancelledTicket 5)) (showSlots (demoShow 7 9 ['4']))
        (updateTicketStatusFiles (ticketSlots zeroTicket) (showSlots zeroShow)
          (saveTickets cancelledPair.tickets) (showFileOf cancelledPair.shows) 1 0).2.1
        (updateTicketStatusFiles (ticketSlots zeroTicket) (showSlots zeroShow)
          (saveTickets cancelledPair.tickets) (showFileOf cancelledPair.shows) 1 0).2.2
        1 0).2
      = (updateTicketStatusFiles (ticketSlots zeroTicket) (showSlots zeroShow)
          (saveTickets cancelledPair.tickets) (showFileOf cancelledPair.shows) 1 0).2 :=
  ⟨(updateTicketStatusFiles_of_cancelled (ticketSlots zeroTicket) (showSlots zeroShow)
      cancelledPair.tickets (showFileOf cancelledPair.shows) (cancelledTicket 1)
      (by decide) (by decide) (by decide) (by decide) (by decide)).1,
   (updateTicketStatusFiles_of_cancelled (ticketSlots zeroTicket) (showSlots zeroShow)
      cancelledPair.tickets (showFileOf cancelledPair.shows) (cancelledTicket 1)
      (by decide) (by decide) (by decide) (by decide) (by decide)).2 1
      (ticketSlots (cancelledTicket 5)) (showSlots (demoShow 7 9 ['4']))⟩

/-- C9 (amended) at a ticket file of two Active tickets, cancelling ticket 1. -/
theorem updateTicketStatusFiles_frame_witness :
    ∃ ts2 : List Ticket,
      (updateTicketStatusFiles (ticketSlots (cancelledTicket 5)) (showSlots zeroShow)
        (saveTickets activePair) (showFileOf [demoShow 0 5 ['1', ',', '2']]) 1 0).2.1
        = saveTickets ts2 ∧
      List.Forall₂
        (fun a b => b = a ∨ (a.id = 1 ∧ a.status ≠ 0 ∧ b = { a with status := 0 }))
        activePair ts2 :=
  updateTicketStatusFiles_frame (ticketSlots (cancelledTicket 5)) (showSlots zeroShow)
    activePair (showFileOf [demoShow 0 5 ['1', ',', '2']]) 1 0 (by decide) (by decide)

end TicketSystem
